import Mathlib

/-!
# datamorph front end: rule authoring and transformation pages

A shallow embedding of the pure and stateful parts of
`frontend/src/pages/Clients.jsx`, `frontend/src/pages/Transform.jsx`,
`frontend/src/pages/ExpressionHelp.jsx` and `frontend/src/services/api.js`,
and a model of the mapping engine written from the specification.

* JavaScript strings are modelled by `String` (sequences of Unicode scalar
  values).  The code only splits on `'.'` and strips white space; the dot and
  every white-space character are single UTF-16 code units outside the
  surrogate range, so splitting and trimming act alike on both presentations.
* JavaScript values that can come out of `JSON.parse`, plus `undefined`, are
  modelled by `JSValue`.  Numbers are rationals: the code only ever tests a
  number for truthiness (non-zero).
* `JSON.parse`, `JSON.stringify`, the toast library and the backend are outside
  the repository; handlers take them as parameters.
-/

namespace Datamorph

/-! ## Strings -/

/-- Code points removed by `String.prototype.trim`: the ECMAScript `WhiteSpace`
and `LineTerminator` productions. -/
def whiteSpaceCodes : List Nat :=
  [0x0009, 0x000A, 0x000B, 0x000C, 0x000D, 0x0020, 0x00A0, 0x1680,
   0x2000, 0x2001, 0x2002, 0x2003, 0x2004, 0x2005, 0x2006, 0x2007,
   0x2008, 0x2009, 0x200A, 0x2028, 0x2029, 0x202F, 0x205F, 0x3000, 0xFEFF]

/-- Whether `trim` treats the character as white space. -/
def isWhiteSpace (c : Char) : Bool := decide (c.toNat ∈ whiteSpaceCodes)

/-- The method `s.trim()`: white space stripped from both ends. -/
def trim (s : String) : String :=
  ⟨((s.data.dropWhile isWhiteSpace).reverse.dropWhile isWhiteSpace).reverse⟩

/-- The method `s.split(sep)` for a one-character separator; `"".split(".")` is `[""]`. -/
def split (s : String) (sep : Char) : List String :=
  (s.data.splitOn sep).map String.mk

/-- The method `segs.join(sep)` on an array of strings. -/
def join (segs : List String) (sep : Char) : String :=
  ⟨[sep].intercalate (segs.map String.data)⟩

/-- Truthiness of a string: every string but the empty one. -/
def strTruthy (s : String) : Bool := decide (s ≠ "")

/-- The expression `path.split('.').filter(p => p.trim())` that both authoring
routes apply to a path string. -/
def pathSegments (path : String) : List String :=
  (split path '.').filter (fun p => strTruthy (trim p))

/-- A string is blank when it has no character other than white space. -/
def isBlank (s : String) : Bool := s.data.all isWhiteSpace

/-! ## Values -/

/-- Values handled by the pages: what `JSON.parse` can return, and `undefined`. -/
inductive JSValue where
  | undefined
  | null
  | bool (b : Bool)
  | num (x : ℚ)
  | str (s : String)
  | arr (items : List JSValue)
  | obj (props : List (String × JSValue))

namespace JSValue

/-- The coercion `ToBoolean`, as applied by `!v`, `v || w`, `v && w` and `if (v)`. -/
def truthy : JSValue → Bool
  | undefined => false
  | null => false
  | bool b => b
  | num x => decide (x ≠ 0)
  | str s => strTruthy s
  | arr _ => true
  | obj _ => true

/-- The expression `a || b`. -/
def or (a b : JSValue) : JSValue := if a.truthy then a else b

/-- The test `Array.isArray(v)`. -/
def isArray : JSValue → Bool
  | arr _ => true
  | _ => false

/-- Whether the value is a boolean (`typeof v === 'boolean'`). -/
def isBoolean : JSValue → Bool
  | bool _ => true
  | _ => false

end JSValue

/-- Exceptions the handlers can see. -/
inductive JSError where
  /-- thrown by `JSON.parse` -/
  | syntaxError (message : String)
  /-- thrown by the engine (property of `null`, call of a non-function);
  the message text is the engine's -/
  | typeError (message : String)
  /-- thrown by `throw new Error(message)` -/
  | error (message : String)
  /-- rejection of a backend request: `error.message` and
  `error.response?.data?.error` -/
  | requestError (message : String) (responseError : JSValue)

namespace JSError

/-- The property `error.name`. -/
def name : JSError → String
  | syntaxError _ => "SyntaxError"
  | typeError _ => "TypeError"
  | error _ => "Error"
  | requestError _ _ => "AxiosError"

/-- The property `error.message`. -/
def message : JSError → String
  | syntaxError m => m
  | typeError m => m
  | error m => m
  | requestError m _ => m

/-- The expression `error.response?.data?.error`. -/
def responseDataError : JSError → JSValue
  | requestError _ e => e
  | _ => JSValue.undefined

end JSError

/-- Own-property lookup in a parsed object. -/
def lookupProp (key : String) : List (String × JSValue) → JSValue
  | [] => JSValue.undefined
  | (k, v) :: rest => if k = key then v else lookupProp key rest

/-- Number of UTF-16 code units of a string (its `length`). -/
def utf16Length (s : String) : Nat :=
  (s.data.map (fun c => if c.toNat < 0x10000 then 1 else 2)).sum

/-- Property read `v[key]` / `v.key` for the data keys the pages use
(`source_path`, `warnings`, `length`, ...).  Reading a property of `null` or
`undefined` throws; primitives and arrays have none of these keys but `length`. -/
def getProp (v : JSValue) (key : String) : Except JSError JSValue :=
  match v with
  | JSValue.undefined =>
      .error (.typeError ("Cannot read properties of undefined (reading '" ++ key ++ "')"))
  | JSValue.null =>
      .error (.typeError ("Cannot read properties of null (reading '" ++ key ++ "')"))
  | JSValue.obj props => .ok (lookupProp key props)
  | JSValue.arr items =>
      .ok (if key = "length" then JSValue.num items.length else JSValue.undefined)
  | JSValue.str s =>
      .ok (if key = "length" then JSValue.num (utf16Length s) else JSValue.undefined)
  | _ => .ok JSValue.undefined

/-! ## Rule authoring (`Clients.jsx`) -/

/-- State of the single-rule form, `newMapping`: five text fields and a check box. -/
structure NewMapping where
  source_path : String
  destination_path : String
  transform_type : String
  transform_logic : String
  default_value : String
  required : Bool
deriving DecidableEq

/-- A rule object as handed to `mappingAPI.create`. -/
structure MappingRule where
  source_path : JSValue
  destination_path : JSValue
  transform_type : JSValue
  transform_logic : JSValue
  default_value : JSValue
  required : JSValue

/-- A segment list as an array value. -/
def segmentsValue (segs : List String) : JSValue := JSValue.arr (segs.map JSValue.str)

/-- The object `mappingRule` built by `handleCreateMapping` (lines 106-110):
the form state with both path strings replaced by their segment lists. -/
def formMappingRule (newMapping : NewMapping) : MappingRule :=
  { source_path := segmentsValue (pathSegments newMapping.source_path)
    destination_path := segmentsValue (pathSegments newMapping.destination_path)
    transform_type := JSValue.str newMapping.transform_type
    transform_logic := JSValue.str newMapping.transform_logic
    default_value := JSValue.str newMapping.default_value
    required := JSValue.bool newMapping.required }

/-- The error message of the required-field check (line 149). -/
def missingFieldMessage (field : String) (index : Nat) : String :=
  "Missing required field '" ++ field ++ "' in mapping rule " ++ toString (index + 1)

/-- The list `required` of line 146. -/
def requiredFields : List String := ["source_path", "destination_path", "transform_type"]

/-- The loop `for (const field of required)` of lines 147-151. -/
def checkRequired (mapping : JSValue) (index : Nat) : List String → Except JSError Unit
  | [] => .ok ()
  | field :: rest =>
      match getProp mapping field with
      | .error e => .error e
      | .ok v =>
          if v.truthy then checkRequired mapping index rest
          else .error (.error (missingFieldMessage field index))

/-- The conditional `Array.isArray(p) ? p : p.split('.').filter(p => p.trim())`
of lines 154-159.  Only strings have a `split` method; the message of the
exception for another value is completed with the field name in
`bulkPathOf`. -/
def bulkPath (p : JSValue) : Except JSError JSValue :=
  match p with
  | JSValue.arr items => .ok (JSValue.arr items)
  | JSValue.str s => .ok (segmentsValue (pathSegments s))
  | JSValue.undefined =>
      .error (.typeError "Cannot read properties of undefined (reading 'split')")
  | JSValue.null =>
      .error (.typeError "Cannot read properties of null (reading 'split')")
  | _ => .error (.typeError "split is not a function")

/-- The conditional of lines 154-159 for the field `field` of `mapping`: the
value of `bulkPath`, and for a value without `split` method the exception
`mapping.<field>.split is not a function`. -/
def bulkPathOf (field : String) (p : JSValue) : Except JSError JSValue :=
  match bulkPath p with
  | .ok segments => .ok segments
  | .error (.typeError "split is not a function") =>
      .error (.typeError ("mapping." ++ field ++ ".split is not a function"))
  | .error e => .error e

/-- The callback of `bulkMappings.map` (lines 145-165): check the required
fields, then build the rule. -/
def transformMapping (mapping : JSValue) (index : Nat) : Except JSError MappingRule := do
  checkRequired mapping index requiredFields
  let source_path ← getProp mapping "source_path"
  let source ← bulkPathOf "source_path" source_path
  let destination_path ← getProp mapping "destination_path"
  let destination ← bulkPathOf "destination_path" destination_path
  let transform_type ← getProp mapping "transform_type"
  let transform_logic ← getProp mapping "transform_logic"
  let default_value ← getProp mapping "default_value"
  let required ← getProp mapping "required"
  pure { source_path := source
         destination_path := destination
         transform_type := transform_type
         transform_logic := transform_logic.or (JSValue.str "")
         default_value := default_value.or (JSValue.str "")
         required := required.or (JSValue.bool false) }

/-- The call `bulkMappings.map(callback)` from position `index` on: elements are
visited in order and the first exception ends the traversal. -/
def mapFrom (index : Nat) : List JSValue → Except JSError (List MappingRule)
  | [] => .ok []
  | mapping :: rest =>
      match transformMapping mapping index with
      | .error e => .error e
      | .ok rule =>
          match mapFrom (index + 1) rest with
          | .error e => .error e
          | .ok rules => .ok (rule :: rules)

/-- The value `transformedMappings` of line 145. -/
def transformedMappings (bulkMappings : List JSValue) : Except JSError (List MappingRule) :=
  mapFrom 0 bulkMappings

/-! ## Platform -/

/-- What the pages use from outside the repository. -/
structure Platform where
  /-- the built-in `JSON.parse`; `none` stands for a thrown `SyntaxError` -/
  jsonParse : String → Option JSValue
  /-- the built-in `JSON.stringify(v, null, 2)` -/
  jsonStringify : JSValue → String
  /-- the coercion `ToString` applied inside template literals -/
  toStr : JSValue → String
  /-- whether the imported toast object has a `warning` method -/
  toastHasWarning : Bool

/-- The exception of a failed `JSON.parse`. -/
def parseFailure : JSError := .syntaxError "Unexpected token in JSON"

/-! ## Page state and effects of `Clients.jsx` -/

/-- A client row as returned by `clientsAPI.getAll`. -/
structure Client where
  id : JSValue
  name : JSValue

/-- A stored rule as returned by `mappingAPI.getByClient`: both paths are arrays
of segment strings (the data model's `source_path`, `destination_path`). -/
structure StoredMapping where
  source_path : List String
  destination_path : List String
  transform_type : JSValue
  transform_logic : JSValue
  default_value : JSValue
  required : JSValue

/-- The `useState` cells of the `Clients` component. -/
structure ClientsState where
  clients : List Client
  loading : Bool
  showCreateModal : Bool
  newClientName : String
  creating : Bool
  selectedClient : Option Client
  mappings : List StoredMapping
  showMappingForm : Bool
  newMapping : NewMapping
  savingMapping : Bool
  showBulkMappingForm : Bool
  bulkMappingText : String
  savingBulkMapping : Bool

/-- Observable actions of a handler, in the order they happen. -/
inductive Effect where
  | toastSuccess (message : String)
  | toastError (message : String)
  | toastWarning (message : String)
  | consoleError (label : String) (e : JSError)
  /-- the request `mappingAPI.create(clientId, rules)` -/
  | createMappings (clientId : JSValue) (rules : List MappingRule)
  /-- the call `loadMappings(clientId)`, not awaited -/
  | loadMappings (clientId : JSValue)
  /-- the request `transformAPI.transform(clientId, inputData)` -/
  | transformRequest (clientId : String) (inputData : JSValue)
  /-- the file offered for download by `exportMappingRules` -/
  | download (fileName : String) (content : String)
  /-- the request `clientsAPI.create(name)` -/
  | createClient (name : String)
  /-- the call `loadClients()`, not awaited -/
  | loadClients

/-- The initial value of `newMapping` (lines 23-30), also the value it is reset
to after a successful save (lines 115-122). -/
def initialNewMapping : NewMapping :=
  { source_path := ""
    destination_path := ""
    transform_type := "copy"
    transform_logic := ""
    default_value := ""
    required := false }

/-- The `SelectItem`s of the transform type select (lines 520-528): value and label. -/
def transformTypeItems : List (String × String) :=
  [("copy", "Copy (direct mapping)"),
   ("toString", "To String"),
   ("toBool", "To Boolean"),
   ("toUpperCase", "To Uppercase"),
   ("toLowerCase", "To Lowercase"),
   ("capitalize", "Capitalize"),
   ("formatDate", "Format Date"),
   ("mapGender", "Map Gender"),
   ("expression", "Custom Expression")]

/-- The values a user can pick in the transform type select. -/
def offeredTransformTypes : List String := transformTypeItems.map Prod.fst

/-- The enumeration of `transform_type` as the data model of the specification
words it. -/
def specTransformTypes : List String :=
  ["copy", "toString", "toBool", "toUpperCase", "toLowerCase", "capitalize",
   "formatDate", "mapGender", "expression"]

/-- Events that change `newMapping`: the `onChange` / `onValueChange` callbacks of
the form (lines 487-574) and the reset after a successful save. -/
inductive FormEvent where
  | sourcePathChanged (value : String)
  | destinationPathChanged (value : String)
  | transformTypeSelected (value : String)
  | defaultValueChanged (value : String)
  | transformLogicChanged (value : String)
  | requiredChanged (checked : Bool)
  | savedAndReset

/-- The select only reports the value of one of its items; the other events
carry any text. -/
def FormEvent.possible : FormEvent → Bool
  | .transformTypeSelected value => decide (value ∈ offeredTransformTypes)
  | _ => true

/-- Effect of one event on `newMapping`. -/
def formStep (newMapping : NewMapping) : FormEvent → NewMapping
  | .sourcePathChanged value => { newMapping with source_path := value }
  | .destinationPathChanged value => { newMapping with destination_path := value }
  | .transformTypeSelected value => { newMapping with transform_type := value }
  | .defaultValueChanged value => { newMapping with default_value := value }
  | .transformLogicChanged value => { newMapping with transform_logic := value }
  | .requiredChanged checked => { newMapping with required := checked }
  | .savedAndReset => initialNewMapping

/-- The form state after a sequence of events, starting from the initial state. -/
def formRun (events : List FormEvent) : NewMapping :=
  events.foldl formStep initialNewMapping

/-- The handler `handleCreateMapping` (lines 99-129).  `reply` is the outcome of
the awaited `mappingAPI.create`. -/
def handleCreateMapping (reply : Except JSError JSValue) (st : ClientsState) :
    ClientsState × List Effect :=
  match st.selectedClient with
  | none => (st, [])
  | some client =>
      let mappingRule := formMappingRule st.newMapping
      match reply with
      | .ok _ =>
          ({ st with showMappingForm := false
                     newMapping := initialNewMapping
                     savingMapping := false },
           [.createMappings client.id [mappingRule],
            .toastSuccess "Mapping rule created successfully",
            .loadMappings client.id])
      | .error _ =>
          ({ st with savingMapping := false },
           [.createMappings client.id [mappingRule],
            .toastError "Failed to create mapping rule"])

/-- The `catch` and `finally` blocks of `handleBulkCreateMapping` (lines 172-181),
entered after the effects `done`. -/
def bulkCatch (st : ClientsState) (done : List Effect) (e : JSError) :
    ClientsState × List Effect :=
  ({ st with savingBulkMapping := false },
   done ++ [.consoleError "Bulk mapping error:" e,
            .toastError
              (if e.name = "SyntaxError" then "Invalid JSON format. Please check your syntax."
               else if strTruthy e.message then e.message
               else "Failed to create bulk mapping rules")])

/-- The handler `handleBulkCreateMapping` (lines 131-182).  `reply` is the outcome
of the awaited `mappingAPI.create`. -/
def handleBulkCreateMapping (pf : Platform) (reply : Except JSError JSValue)
    (st : ClientsState) : ClientsState × List Effect :=
  match st.selectedClient with
  | none => (st, [])
  | some client =>
      if strTruthy (trim st.bulkMappingText) then
        match pf.jsonParse st.bulkMappingText with
        | none => bulkCatch st [] parseFailure
        | some (JSValue.arr bulkMappings) =>
            match transformedMappings bulkMappings with
            | .error e => bulkCatch st [] e
            | .ok rules =>
                match reply with
                | .error e => bulkCatch st [.createMappings client.id rules] e
                | .ok _ =>
                    ({ st with showBulkMappingForm := false
                               bulkMappingText := ""
                               savingBulkMapping := false },
                     [.createMappings client.id rules,
                      .toastSuccess ("Successfully created " ++ toString rules.length
                        ++ " mapping rules"),
                      .loadMappings client.id])
        | some _ => bulkCatch st [] (.error "Expected an array of mapping rules")
      else (st, [])

/-- The array `exportData` of `exportMappingRules` (lines 220-227). -/
def exportData (mappings : List StoredMapping) : JSValue :=
  JSValue.arr (mappings.map fun mapping =>
    JSValue.obj
      [("source_path", JSValue.str (join mapping.source_path '.')),
       ("destination_path", JSValue.str (join mapping.destination_path '.')),
       ("transform_type", mapping.transform_type),
       ("transform_logic", mapping.transform_logic),
       ("default_value", mapping.default_value),
       ("required", mapping.required)])

/-- The expression `selectedClient?.name || 'client'` of the download name. -/
def exportClientName (selectedClient : Option Client) : JSValue :=
  (match selectedClient with
   | none => JSValue.undefined
   | some client => client.name).or (JSValue.str "client")

/-- The function `exportMappingRules` (lines 214-239); it changes no state. -/
def exportMappingRules (pf : Platform) (st : ClientsState) : List Effect :=
  if st.mappings.length = 0 then [.toastError "No mapping rules to export"]
  else
    [.download (pf.toStr (exportClientName st.selectedClient) ++ "_mapping_rules.json")
       (pf.jsonStringify (exportData st.mappings)),
     .toastSuccess "Mapping rules exported successfully"]

/-- The text `exportMappingRules` writes, when it writes any. -/
def exportedText (pf : Platform) (st : ClientsState) : Option String :=
  (exportMappingRules pf st).findSome? fun
    | .download _ content => some content
    | _ => none

/-- A stored rule as a rule object: the six fields a submitted rule carries. -/
def storedRule (mapping : StoredMapping) : MappingRule :=
  { source_path := segmentsValue mapping.source_path
    destination_path := segmentsValue mapping.destination_path
    transform_type := mapping.transform_type
    transform_logic := mapping.transform_logic
    default_value := mapping.default_value
    required := mapping.required }

/-- The rules a handler run handed to `mappingAPI.create`, request by request. -/
def submittedRules (effects : List Effect) : List (List MappingRule) :=
  effects.filterMap fun
    | .createMappings _ rules => some rules
    | _ => none

/-! ## Page state of `Transform.jsx` -/

/-- The `useState` cells of the `Transform` component. -/
structure TransformState where
  clients : List Client
  selectedClient : String
  inputData : String
  outputData : String
  loading : Bool
  loadingClients : Bool

/-- Text a template literal inserts for a value: a string as it is, anything
else through the platform's `ToString`. -/
def templateText (pf : Platform) : JSValue → String
  | JSValue.str s => s
  | other => pf.toStr other

/-- The `catch` and `finally` blocks of `handleTransform` (lines 59-71), entered
after the effects `done`. -/
def transformCatch (pf : Platform) (st : TransformState) (done : List Effect) (e : JSError) :
    TransformState × List Effect :=
  ({ st with outputData := "", loading := false },
   done ++ [.consoleError "Transformation error:" e,
            .toastError
              (if e.name = "SyntaxError" then "Invalid JSON format in input data"
               else if e.responseDataError.truthy then
                 "Transformation failed: " ++ templateText pf e.responseDataError
               else "Transformation failed")])

/-- The condition `result.warnings && result.warnings.missingRequiredFields` of
line 52. -/
def warningsCondition (result : JSValue) : Except JSError JSValue :=
  match getProp result "warnings" with
  | .error e => .error e
  | .ok warnings =>
      if warnings.truthy then getProp warnings "missingRequiredFields" else .ok warnings

/-- The message of the warning toast (line 54), for the value `missing` of
`result.warnings.missingRequiredFields`. -/
def warningMessage (pf : Platform) (missing : JSValue) : Except JSError String :=
  match getProp missing "length" with
  | .error e => .error e
  | .ok len =>
      .ok ("Transformation completed with warnings: " ++ templateText pf len
        ++ " missing required fields")

/-- The handler `handleTransform` (lines 33-72).  `reply` is the outcome of the
awaited `transformAPI.transform`. -/
def handleTransform (pf : Platform) (reply : Except JSError JSValue)
    (st : TransformState) : TransformState × List Effect :=
  if strTruthy st.selectedClient then
    if strTruthy (trim st.inputData) then
      match pf.jsonParse st.inputData with
      | none => transformCatch pf st [] parseFailure
      | some parsedInput =>
          let request := Effect.transformRequest st.selectedClient parsedInput
          match reply with
          | .error e => transformCatch pf st [request] e
          | .ok result =>
              let shown := { st with outputData := pf.jsonStringify result }
              match warningsCondition result with
              | .error e => transformCatch pf shown [request] e
              | .ok missing =>
                  if missing.truthy then
                    if pf.toastHasWarning then
                      match warningMessage pf missing with
                      | .error e => transformCatch pf shown [request] e
                      | .ok message =>
                          ({ shown with loading := false },
                           [request, .toastWarning message])
                    else
                      transformCatch pf shown [request]
                        (.typeError "toast.warning is not a function")
                  else
                    ({ shown with loading := false },
                     [request, .toastSuccess "Transformation completed successfully"])
    else (st, [.toastError "Please provide input data"])
  else (st, [.toastError "Please select a client"])

/-- The initial values of the `useState` cells of `Clients` (lines 15-34). -/
def initialClientsState : ClientsState :=
  { clients := []
    loading := true
    showCreateModal := false
    newClientName := ""
    creating := false
    selectedClient := none
    mappings := []
    showMappingForm := false
    newMapping := initialNewMapping
    savingMapping := false
    showBulkMappingForm := false
    bulkMappingText := ""
    savingBulkMapping := false }

/-- The segment list the interface contract of the specification words: the
path split on `.` with the empty segments, and only those, discarded. -/
def specPathSegments (path : String) : List String :=
  (split path '.').filter (fun p => decide (p ≠ ""))

/-- A required field is missing from a rule when reading it gives a falsy value
(`undefined` when absent, or `null`, `false`, `0`, `""`). -/
def fieldMissing (mapping : JSValue) (field : String) : Bool :=
  match getProp mapping field with
  | .ok v => !v.truthy
  | .error _ => false

/-- A path field that is absent, a string or an array. -/
def isPathLike : JSValue → Bool
  | JSValue.undefined => true
  | JSValue.str _ => true
  | JSValue.arr _ => true
  | _ => false

/-- An object whose path fields, where present, are strings or arrays. -/
def isRuleObject : JSValue → Bool
  | JSValue.obj props =>
      isPathLike (lookupProp "source_path" props)
        && isPathLike (lookupProp "destination_path" props)
  | _ => false

/-! ## Sample inputs -/

/-- A client row used in examples. -/
def sampleClient : Client := { id := JSValue.num 1, name := JSValue.str "acme" }

/-- The rule form open for `sampleClient` with the given form state. -/
def formState (newMapping : NewMapping) : ClientsState :=
  { initialClientsState with
    selectedClient := some sampleClient
    showMappingForm := true
    newMapping := newMapping }

/-- The bulk import form open for `sampleClient` with the given text. -/
def bulkState (text : String) : ClientsState :=
  { initialClientsState with
    selectedClient := some sampleClient
    showBulkMappingForm := true
    bulkMappingText := text }

/-- A platform of which one fact is fixed: `text` parses to `value`, and every
printed value is `text`.  Any other text is rejected by `JSON.parse`. -/
def platformAt (text : String) (value : JSValue) : Platform :=
  { jsonParse := fun t => if t = text then some value else none
    jsonStringify := fun _ => text
    toStr := fun _ => "[object Object]"
    toastHasWarning := false }

/-- A bulk rule whose source path is already split and holds a segment with a
dot and outer blanks. -/
def splitPathRule : JSValue :=
  JSValue.obj
    [("source_path", JSValue.arr [JSValue.str "a", JSValue.str " x.y "]),
     ("destination_path", JSValue.str "out.name"),
     ("transform_type", JSValue.str "copy"),
     ("required", JSValue.bool true)]

/-- The rule bulk import builds from `splitPathRule`. -/
def splitPathSubmitted : MappingRule :=
  { source_path := JSValue.arr [JSValue.str "a", JSValue.str " x.y "]
    destination_path := JSValue.arr [JSValue.str "out", JSValue.str "name"]
    transform_type := JSValue.str "copy"
    transform_logic := JSValue.str ""
    default_value := JSValue.str ""
    required := JSValue.bool true }

/-- The text of `[splitPathRule]`. -/
def splitPathText : String :=
  "[\x7b\"source_path\": [\"a\", \" x.y \"], \"destination_path\": \"out.name\", "
    ++ "\"transform_type\": \"copy\", \"required\": true\x7d]"

/-- A bulk rule with the three required fields and `required` given as text. -/
def textRequiredRule : JSValue :=
  JSValue.obj
    [("source_path", JSValue.str "a"),
     ("destination_path", JSValue.str "b"),
     ("transform_type", JSValue.str "copy"),
     ("required", JSValue.str "yes")]

/-- A bulk rule that lacks `destination_path` and `transform_type`. -/
def incompleteRule : JSValue :=
  JSValue.obj [("source_path", JSValue.str "a.b")]

/-- A form state whose source path is a single dot. -/
def dotForm : NewMapping :=
  { initialNewMapping with source_path := ".", destination_path := "out" }

/-- A bulk rule whose source path is a single dot and whose destination path is
an empty array. -/
def dotRule : JSValue :=
  JSValue.obj
    [("source_path", JSValue.str "."),
     ("destination_path", JSValue.arr []),
     ("transform_type", JSValue.str "copy")]

/-- A stored path as the round-trip claim takes it: a non-empty list of
segments, none holding a dot, none blank. -/
def isStoredPath (path : List String) : Bool :=
  !path.isEmpty && path.all (fun seg => !seg.data.contains '.' && !isBlank seg)

/-- A non-empty string value. -/
def isNonEmptyString : JSValue → Bool
  | JSValue.str s => strTruthy s
  | _ => false

/-- A string value. -/
def isString : JSValue → Bool
  | JSValue.str _ => true
  | _ => false

/-- A stored rule as the round-trip claim takes it: well-formed paths, a
non-empty string `transform_type`, string `transform_logic` and `default_value`,
boolean `required`. -/
def isWellFormedStored (mapping : StoredMapping) : Bool :=
  isStoredPath mapping.source_path && isStoredPath mapping.destination_path
    && isNonEmptyString mapping.transform_type && isString mapping.transform_logic
    && isString mapping.default_value && mapping.required.isBoolean

/-- The JSON built-ins are faithful on `value`: its printed text is not blank
and parses back to `value`. -/
def JsonFaithfulOn (pf : Platform) (value : JSValue) : Prop :=
  strTruthy (trim (pf.jsonStringify value)) = true
    ∧ pf.jsonParse (pf.jsonStringify value) = some value

/-- A stored rule list with one rule. -/
def sampleMappings : List StoredMapping :=
  [{ source_path := ["applicantDetails", "0", "entityName"]
     destination_path := ["applicant_name"]
     transform_type := JSValue.str "copy"
     transform_logic := JSValue.str ""
     default_value := JSValue.str ""
     required := JSValue.bool true }]

/-- The text `JSON.stringify(exportData, null, 2)` for `sampleMappings`. -/
def sampleExportText : String :=
  "[\n  \x7b\n    \"source_path\": \"applicantDetails.0.entityName\",\n"
    ++ "    \"destination_path\": \"applicant_name\",\n"
    ++ "    \"transform_type\": \"copy\",\n"
    ++ "    \"transform_logic\": \"\",\n"
    ++ "    \"default_value\": \"\",\n"
    ++ "    \"required\": true\n  \x7d\n]"

/-- The rules page showing `sampleMappings` for `sampleClient`. -/
def sampleMappingsState : ClientsState :=
  { initialClientsState with
    selectedClient := some sampleClient
    mappings := sampleMappings }

/-- The initial values of the `useState` cells of `Transform` (lines 11-16). -/
def initialTransformState : TransformState :=
  { clients := []
    selectedClient := ""
    inputData := "\x7b\n  \"example\": \x7b\n    \"data\": \"value\"\n  \x7d\n\x7d"
    outputData := ""
    loading := false
    loadingClients := true }

/-- The transformation page with client `1` selected and the initial input. -/
def sampleTransformState : TransformState :=
  { initialTransformState with selectedClient := "1", loadingClients := false }

/-- The value of the initial input text. -/
def sampleInput : JSValue :=
  JSValue.obj [("example", JSValue.obj [("data", JSValue.str "value")])]

/-- A platform that parses the initial input text, prints `null` as `null`, and
whose toast object has no `warning` method. -/
def sampleTransformPlatform : Platform :=
  { jsonParse := fun t => if t = initialTransformState.inputData then some sampleInput else none
    jsonStringify := fun v =>
      match v with
      | JSValue.null => "null"
      | _ => "[value]"
    toStr := fun _ => "[object Object]"
    toastHasWarning := false }

/-- A backend result that reports one missing required field. -/
def sampleWarningResult : JSValue :=
  JSValue.obj
    [("output", JSValue.obj []),
     ("warnings", JSValue.obj [("missingRequiredFields", JSValue.arr [JSValue.str "a.0.name"])])]

/-- A template-literal `ToString` that prints integers in decimal and strings as
they are; other values get fixed texts. -/
def sampleToStr : JSValue → String
  | JSValue.undefined => "undefined"
  | JSValue.null => "null"
  | JSValue.bool b => if b then "true" else "false"
  | JSValue.num x => if x.den = 1 then toString x.num else "NaN"
  | JSValue.str s => s
  | _ => "[object Object]"

/-- The sample platform with a toast object that does have a `warning` method. -/
def sampleWarningPlatform : Platform :=
  { sampleTransformPlatform with toStr := sampleToStr, toastHasWarning := true }

/-- A backend result whose list of missing required fields is empty. -/
def emptyWarningResult : JSValue :=
  JSValue.obj
    [("output", JSValue.obj []),
     ("warnings", JSValue.obj [("missingRequiredFields", JSValue.arr [])])]

/-- A bulk rule with the number `0` as default value. -/
def zeroDefaultRule : JSValue :=
  JSValue.obj
    [("source_path", JSValue.str "a"),
     ("destination_path", JSValue.str "b"),
     ("transform_type", JSValue.str "copy"),
     ("default_value", JSValue.num 0)]

/-- The rule bulk import builds from `zeroDefaultRule`. -/
def zeroDefaultSubmitted : MappingRule :=
  { source_path := JSValue.arr [JSValue.str "a"]
    destination_path := JSValue.arr [JSValue.str "b"]
    transform_type := JSValue.str "copy"
    transform_logic := JSValue.str ""
    default_value := JSValue.str ""
    required := JSValue.bool false }

/-! ## Request interceptor (`services/api.js`) -/

/-- An axios request configuration: its headers, and every other field. -/
structure RequestConfig where
  headers : List (String × String)
  others : List (String × JSValue)
deriving Inhabited

/-- Property read `headers[name]`; `none` when there is no such header. -/
def getHeader (name : String) : List (String × String) → Option String
  | [] => none
  | (k, v) :: rest => if k = name then some v else getHeader name rest

/-- Property assignment `headers[name] = value`. -/
def setHeader (name value : String) : List (String × String) → List (String × String)
  | [] => [(name, value)]
  | (k, v) :: rest => if k = name then (k, value) :: rest else (k, v) :: setHeader name value rest

/-- The request interceptor of lines 16-26; `token` is what
`localStorage.getItem('token')` returns (`none` for `null`). -/
def requestInterceptor (token : Option String) (config : RequestConfig) : RequestConfig :=
  match token with
  | some t =>
      if strTruthy t then
        { config with headers := setHeader "Authorization" ("Bearer " ++ t) config.headers }
      else config
  | none => config

/-- A request as `api.get('/clients')` makes it. -/
def sampleConfig : RequestConfig :=
  { headers := [("Content-Type", "application/json")]
    others := [("url", JSValue.str "/clients"), ("method", JSValue.str "get")] }

/-! ## Function reference (`ExpressionHelp.jsx`) -/

/-- An entry of the `functions` array (lines 64-110). -/
structure HelpFunction where
  name : String
  description : String
  /-- the field `example` -/
  exampleText : String

/-- The array `functions` of the help page (lines 64-110). -/
def helpFunctions : List HelpFunction :=
  [{ name := "toUpper(str)", description := "Convert string to uppercase",
     exampleText := "toUpper('hello') → 'HELLO'" },
   { name := "toLower(str)", description := "Convert string to lowercase",
     exampleText := "toLower('HELLO') → 'hello'" },
   { name := "len(str)", description := "Get length of string",
     exampleText := "len('hello') → 5" },
   { name := "substr(str, start, length)", description := "Extract substring",
     exampleText := "substr('hello', 1, 3) → 'ell'" },
   { name := "contains(str, substring)", description := "Check if string contains substring",
     exampleText := "contains('hello world', 'world') → true" },
   { name := "replace(str, old, new)", description := "Replace text in string",
     exampleText := "replace('hello world', 'world', 'universe') → 'hello universe'" },
   { name := "trim(str)", description := "Remove whitespace from start and end",
     exampleText := "trim('  hello  ') → 'hello'" },
   { name := "getCurrentDate()", description := "Get current date in YYYY-MM-DD format",
     exampleText := "getCurrentDate() → '2025-07-10'" },
   { name := "formatDate(date, format)", description := "Format date string",
     exampleText := "formatDate('2025-07-10', 'DD/MM/YYYY') → '10/07/2025'" }]

/-- The function name of a signature such as `substr(str, start, length)`. -/
def signatureName (signature : String) : String :=
  ⟨signature.data.takeWhile (fun c => c != '(')⟩

/-- The parameter names of a signature: the comma-separated, non-blank pieces
between the parentheses. -/
def signatureParams (signature : String) : List String :=
  ((split ⟨((signature.data.dropWhile (fun c => c != '(')).drop 1).takeWhile
      (fun c => c != ')')⟩ ',').map trim).filter strTruthy

/-- The arity a signature shows. -/
def signatureArity (signature : String) : Nat := (signatureParams signature).length

/-- The built-in functions of the expression language with their arities, as
the specification lists them. -/
def specBuiltinFunctions : List (String × Nat) :=
  [("toUpper", 1), ("toLower", 1), ("len", 1), ("substr", 3), ("contains", 2),
   ("replace", 3), ("trim", 1), ("getCurrentDate", 0), ("formatDate", 2)]

/-! ## The mapping engine

The engine itself (PathAccessor, ExpressionEvaluator, TransformCatalog,
MappingPipeline) is not among the front-end sources; the definitions of this
section follow sections 3, 4 and 7 of the specification. -/

namespace Engine

/-- Modelled from the spec: the engine is absent from the sources; a document
is "a tree of untyped values — mappings (string keys), ordered sequences, and
scalars (string, number, boolean, null)" (section 3). -/
inductive Value where
  | null
  | bool (b : Bool)
  | num (x : ℚ)
  | str (s : String)
  | seq (items : List Value)
  | map (fields : List (String × Value))

/-- Modelled from the spec: the error taxonomy of section 7, as far as it
concerns one rule: `PathError`, `ExpressionError`, `TransformError`. -/
inductive EngineError where
  | pathError
  | expressionError (message : String)
  | transformError (message : String)
deriving DecidableEq

/-- Modelled from the spec: what the specification leaves to the environment:
the clock behind `getCurrentDate()` ("must be injectable"), the date
formatting behind `formatDate`, and the text of a number that is not integral. -/
structure EngineEnv where
  currentDate : String
  formatDate : String → String → Except EngineError String
  fractionText : ℚ → String

/-- Modelled from the spec: the value of a key in a mapping, if present. -/
def lookupField (key : String) : List (String × Value) → Option Value
  | [] => none
  | (k, v) :: rest => if k = key then some v else lookupField key rest

/-- Modelled from the spec: a mapping with the value of `key` replaced, or the
key added when it is absent. -/
def setField (key : String) (v : Value) : List (String × Value) → List (String × Value)
  | [] => [(key, v)]
  | (k, w) :: rest => if k = key then (k, v) :: rest else (k, w) :: setField key v rest

/-- Modelled from the spec: "a segment that is a non-negative integer literal
denotes array-index access" (section 3): the index a segment parses to. -/
def parseIndex (seg : String) : Option Nat :=
  if seg.data ≠ [] ∧ seg.data.all Char.isDigit then
    some (seg.data.foldl (fun n c => 10 * n + (c.toNat - '0'.toNat)) 0)
  else none

/-- Modelled from the spec: `get(document, path) -> (value, found)` of section
4.1; `ok none` is `found = false`.  A mapping takes the segment as a key, a
sequence as an index (out of range: not found); a segment that meets a scalar,
or a sequence without being an index, is a type mismatch, hence `PathError`. -/
def get : Value → List String → Except EngineError (Option Value)
  | doc, [] => .ok (some doc)
  | .map fields, seg :: rest =>
      match lookupField seg fields with
      | none => .ok none
      | some child => get child rest
  | .seq items, seg :: rest =>
      match parseIndex seg with
      | none => .error .pathError
      | some i =>
          match items[i]? with
          | none => .ok none
          | some child => get child rest
  | _, _ :: _ => .error .pathError

/-- Modelled from the spec: `set` of section 4.1 from a node that may be
absent.  An absent node becomes a mapping ("if the node is absent ... `set`
creates a mapping"), a mapping takes the segment as a key, a sequence as an
index and grows with null-fill when the index is out of range; the terminal
segment overwrites; a type mismatch is a `PathError`. -/
def setAt : Option Value → List String → Value → Except EngineError Value
  | _, [], v => .ok v
  | none, seg :: rest, v =>
      match setAt none rest v with
      | .error e => .error e
      | .ok child => .ok (.map [(seg, child)])
  | some (.map fields), seg :: rest, v =>
      match setAt (lookupField seg fields) rest v with
      | .error e => .error e
      | .ok child => .ok (.map (setField seg child fields))
  | some (.seq items), seg :: rest, v =>
      match parseIndex seg with
      | none => .error .pathError
      | some i =>
          if i < items.length then
            match setAt items[i]? rest v with
            | .error e => .error e
            | .ok child => .ok (.seq (items.set i child))
          else
            match setAt none rest v with
            | .error e => .error e
            | .ok child =>
                .ok (.seq (items ++ List.replicate (i - items.length) Value.null ++ [child]))
  | some _, _ :: _, _ => .error .pathError

/-- Modelled from the spec: `set(document, path, value)` of section 4.1. -/
def set (doc : Value) (path : List String) (v : Value) : Except EngineError Value :=
  setAt (some doc) path v

/-- Modelled from the spec: a path of which every segment is taken as a mapping
key when traversed in a document: each node met is a mapping or absent. -/
def traversesMappings : Option Value → List String → Bool
  | _, [] => true
  | none, _ :: _ => true
  | some (.map fields), seg :: rest => traversesMappings (lookupField seg fields) rest
  | some _, _ :: _ => false

/-- Modelled from the spec: a segment that is a mapping key by the glossary
("either a mapping key or, if numeric, a sequence index"): not an integer
literal. -/
def isKeySegment (seg : String) : Bool := (parseIndex seg).isNone

/-! ### Expression language (section 4.2) -/

/-- Modelled from the spec: truthiness, "non-empty string, non-zero number,
true, non-null" (section 4.2). -/
def truthy : Value → Bool
  | .null => false
  | .bool b => b
  | .num x => decide (x ≠ 0)
  | .str s => decide (s ≠ "")
  | .seq _ => true
  | .map _ => true

mutual
/-- Modelled from the spec: the structural equality of `==` and `!=` (section
4.2); mappings are compared key by key, their order being irrelevant. -/
def eqv : Value → Value → Bool
  | .null, .null => true
  | .bool a, .bool b => a == b
  | .num a, .num b => decide (a = b)
  | .str a, .str b => decide (a = b)
  | .seq xs, .seq ys => eqvList xs ys
  | .map fs, .map gs => decide (fs.length = gs.length) && eqvFields fs gs
  | _, _ => false
/-- Modelled from the spec: structural equality of sequences, item by item. -/
def eqvList : List Value → List Value → Bool
  | [], [] => true
  | x :: xs, y :: ys => eqv x y && eqvList xs ys
  | _, _ => false
/-- Modelled from the spec: every field of the first mapping has an equal field
in the second. -/
def eqvFields : List (String × Value) → List (String × Value) → Bool
  | [], _ => true
  | (k, v) :: rest, gs =>
      (match lookupField k gs with
       | some w => eqv v w
       | none => false) && eqvFields rest gs
end

/-- Modelled from the spec: string coercion, as `toString` words it (section
4.3): "numbers without trailing zeros where integral, booleans as
true/false, null as empty string"; mappings and sequences have none. -/
def stringify (env : EngineEnv) : Value → Option String
  | .null => some ""
  | .bool b => some (if b then "true" else "false")
  | .num x => some (if x.den = 1 then toString x.num else env.fractionText x)
  | .str s => some s
  | _ => none

/-- Modelled from the spec: the value of a run of decimal digits. -/
def digitsValue (digits : List Char) : Nat :=
  digits.foldl (fun n c => 10 * n + (c.toNat - '0'.toNat)) 0

/-- Modelled from the spec: the number a numeric literal denotes: digits with
an optional fraction; `none` when the text is not of that shape. -/
def literalValue (text : List Char) : Option ℚ :=
  let whole := text.takeWhile Char.isDigit
  let rest := text.dropWhile Char.isDigit
  if whole = [] then none
  else
    match rest with
    | [] => some (digitsValue whole : ℚ)
    | '.' :: frac =>
        if frac ≠ [] ∧ frac.all Char.isDigit then
          some ((digitsValue whole : ℚ) + (digitsValue frac : ℚ) / (10 : ℚ) ^ frac.length)
        else none
    | _ => none

/-- Modelled from the spec: the number of a "numeric-looking" operand (section
4.2): a number, or a string that reads as a numeric literal, possibly with a
minus sign. -/
def numericValue : Value → Option ℚ
  | .num x => some x
  | .str s =>
      match s.data with
      | '-' :: rest => (literalValue rest).map (fun x => -x)
      | text => literalValue text
  | _ => none

/-- Modelled from the spec: the operators of the grammar of section 4.2 that
take two operands. -/
inductive BinOp where
  | or | and | eq | ne | lt | le | gt | ge | add | sub | mul | div
deriving DecidableEq

/-- Modelled from the spec: the unary operators `-` and `!` of the grammar. -/
inductive UnOp where
  | neg | not
deriving DecidableEq

/-- Modelled from the spec: syntax trees of the grammar of section 4.2: numeric
and string literals, the identifier `value`, function calls, unary and binary
operators, and the ternary. -/
inductive Expr where
  | num (x : ℚ)
  | str (s : String)
  | value
  | call (fn : String) (args : List Expr)
  | unary (op : UnOp) (e : Expr)
  | binary (op : BinOp) (l r : Expr)
  | ternary (c t e : Expr)

/-- Modelled from the spec: the tokens of the expression text. -/
inductive Token where
  | num (x : ℚ)
  | str (s : String)
  | ident (name : String)
  | op (symbol : String)
  | lparen
  | rparen
  | comma
  | question
  | colon

/-- Modelled from the spec: the operator symbol at the head of the text, the
two-character ones first. -/
def operatorAt : List Char → Option (String × List Char)
  | '|' :: '|' :: rest => some ("||", rest)
  | '&' :: '&' :: rest => some ("&&", rest)
  | '=' :: '=' :: rest => some ("==", rest)
  | '!' :: '=' :: rest => some ("!=", rest)
  | '<' :: '=' :: rest => some ("<=", rest)
  | '>' :: '=' :: rest => some (">=", rest)
  | '<' :: rest => some ("<", rest)
  | '>' :: rest => some (">", rest)
  | '+' :: rest => some ("+", rest)
  | '-' :: rest => some ("-", rest)
  | '*' :: rest => some ("*", rest)
  | '/' :: rest => some ("/", rest)
  | '!' :: rest => some ("!", rest)
  | _ => none

/-- Modelled from the spec: characters of an identifier. -/
def isIdentChar (c : Char) : Bool := c.isAlphanum || c == '_'

/-- Modelled from the spec: the numeric literal at the head of the text: its
characters and the remaining text. -/
def numberAt (text : List Char) : List Char × List Char :=
  let whole := text.takeWhile Char.isDigit
  let rest := text.dropWhile Char.isDigit
  match rest with
  | '.' :: frac =>
      if (frac.takeWhile Char.isDigit) ≠ [] then
        (whole ++ '.' :: frac.takeWhile Char.isDigit, frac.dropWhile Char.isDigit)
      else (whole, rest)
  | _ => (whole, rest)

/-- Modelled from the spec: the tokenizer of section 4.2.  `fuel` bounds the
number of steps; the length of the text is enough. -/
def tokenize : Nat → List Char → Except EngineError (List Token)
  | _, [] => .ok []
  | 0, _ :: _ => .error (.expressionError "expression too long")
  | fuel + 1, c :: cs =>
      if isWhiteSpace c then tokenize fuel cs
      else if c.isDigit then
        match literalValue (numberAt (c :: cs)).1 with
        | none => .error (.expressionError "bad number")
        | some x => (tokenize fuel (numberAt (c :: cs)).2).map (fun ts => Token.num x :: ts)
      else if c = '\'' then
        match cs.dropWhile (fun d => d != '\'') with
        | [] => .error (.expressionError "unterminated string")
        | _ :: rest =>
            (tokenize fuel rest).map
              (fun ts => Token.str ⟨cs.takeWhile (fun d => d != '\'')⟩ :: ts)
      else if c.isAlpha || c == '_' then
        (tokenize fuel (cs.dropWhile isIdentChar)).map
          (fun ts => Token.ident ⟨c :: cs.takeWhile isIdentChar⟩ :: ts)
      else if c = '(' then (tokenize fuel cs).map (fun ts => Token.lparen :: ts)
      else if c = ')' then (tokenize fuel cs).map (fun ts => Token.rparen :: ts)
      else if c = ',' then (tokenize fuel cs).map (fun ts => Token.comma :: ts)
      else if c = '?' then (tokenize fuel cs).map (fun ts => Token.question :: ts)
      else if c = ':' then (tokenize fuel cs).map (fun ts => Token.colon :: ts)
      else
        match operatorAt (c :: cs) with
        | some (symbol, rest) => (tokenize fuel rest).map (fun ts => Token.op symbol :: ts)
        | none => .error (.expressionError "unexpected character")

/-- Modelled from the spec: the binary operator a symbol denotes at a
precedence level of section 4.2, lowest first: `||`, `&&`, equality,
relational, additive, multiplicative. -/
def binOpAt (level : Nat) (symbol : String) : Option BinOp :=
  match level, symbol with
  | 0, "||" => some .or
  | 1, "&&" => some .and
  | 2, "==" => some .eq
  | 2, "!=" => some .ne
  | 3, "<" => some .lt
  | 3, "<=" => some .le
  | 3, ">" => some .gt
  | 3, ">=" => some .ge
  | 4, "+" => some .add
  | 4, "-" => some .sub
  | 5, "*" => some .mul
  | 5, "/" => some .div
  | _, _ => none

mutual
/-- Modelled from the spec: the ternary level of the grammar, lowest in
precedence and right-associative.  `fuel` bounds the nesting depth. -/
def parseTernary : Nat → List Token → Except EngineError (Expr × List Token)
  | 0, _ => .error (.expressionError "expression too deep")
  | fuel + 1, ts =>
      match parseBinary fuel 0 ts with
      | .error e => .error e
      | .ok (c, .question :: ts1) =>
          match parseTernary fuel ts1 with
          | .error e => .error e
          | .ok (t, .colon :: ts2) =>
              match parseTernary fuel ts2 with
              | .error e => .error e
              | .ok (e, ts3) => .ok (.ternary c t e, ts3)
          | .ok _ => .error (.expressionError "expected ':'")
      | .ok (c, ts1) => .ok (c, ts1)
/-- Modelled from the spec: one binary level of the grammar (`0` is `||`, `5`
is multiplicative); above it come the unary operators. -/
def parseBinary : Nat → Nat → List Token → Except EngineError (Expr × List Token)
  | 0, _, _ => .error (.expressionError "expression too deep")
  | fuel + 1, level, ts =>
      if 6 ≤ level then parseUnary fuel ts
      else
        match parseBinary fuel (level + 1) ts with
        | .error e => .error e
        | .ok (lhs, ts1) => parseBinaryRest fuel level lhs ts1
/-- Modelled from the spec: further operands of one binary level, grouped to
the left. -/
def parseBinaryRest : Nat → Nat → Expr → List Token → Except EngineError (Expr × List Token)
  | 0, _, _, _ => .error (.expressionError "expression too deep")
  | fuel + 1, level, lhs, ts =>
      match ts with
      | .op symbol :: ts1 =>
          match binOpAt level symbol with
          | none => .ok (lhs, ts)
          | some op =>
              match parseBinary fuel (level + 1) ts1 with
              | .error e => .error e
              | .ok (rhs, ts2) => parseBinaryRest fuel level (.binary op lhs rhs) ts2
      | _ => .ok (lhs, ts)
/-- Modelled from the spec: the unary level, `-` and `!`. -/
def parseUnary : Nat → List Token → Except EngineError (Expr × List Token)
  | 0, _ => .error (.expressionError "expression too deep")
  | fuel + 1, ts =>
      match ts with
      | .op symbol :: ts1 =>
          if symbol = "-" then
            match parseUnary fuel ts1 with
            | .error e => .error e
            | .ok (e, ts2) => .ok (.unary .neg e, ts2)
          else if symbol = "!" then
            match parseUnary fuel ts1 with
            | .error e => .error e
            | .ok (e, ts2) => .ok (.unary .not e, ts2)
          else .error (.expressionError "unexpected operator")
      | _ => parsePrimary fuel ts
/-- Modelled from the spec: the primary level: numeric literal, string literal,
the identifier `value`, function call, parenthesized expression. -/
def parsePrimary : Nat → List Token → Except EngineError (Expr × List Token)
  | 0, _ => .error (.expressionError "expression too deep")
  | fuel + 1, ts =>
      match ts with
      | .num x :: ts1 => .ok (.num x, ts1)
      | .str s :: ts1 => .ok (.str s, ts1)
      | .ident name :: .lparen :: .rparen :: ts1 => .ok (.call name [], ts1)
      | .ident name :: .lparen :: ts1 =>
          match parseArgs fuel ts1 with
          | .error e => .error e
          | .ok (args, ts2) => .ok (.call name args, ts2)
      | .ident name :: ts1 =>
          if name = "value" then .ok (.value, ts1)
          else .error (.expressionError "unknown identifier")
      | .lparen :: ts1 =>
          match parseTernary fuel ts1 with
          | .error e => .error e
          | .ok (e, .rparen :: ts2) => .ok (e, ts2)
          | .ok _ => .error (.expressionError "expected ')'")
      | _ => .error (.expressionError "unexpected token")
/-- Modelled from the spec: the arguments of a call, up to the closing
parenthesis. -/
def parseArgs : Nat → List Token → Except EngineError (List Expr × List Token)
  | 0, _ => .error (.expressionError "expression too deep")
  | fuel + 1, ts =>
      match parseTernary fuel ts with
      | .error e => .error e
      | .ok (arg, .comma :: ts1) =>
          match parseArgs fuel ts1 with
          | .error e => .error e
          | .ok (args, ts2) => .ok (arg :: args, ts2)
      | .ok (arg, .rparen :: ts1) => .ok ([arg], ts1)
      | .ok _ => .error (.expressionError "expected ',' or ')'")
end

/-- Modelled from the spec: parsing of a `transform_logic` text (section 4.2):
tokenize, parse one expression, and accept when no token is left.  The fuel is
taken from the size of the text. -/
def parseExpression (text : String) : Except EngineError Expr :=
  match tokenize text.data.length text.data with
  | .error e => .error e
  | .ok tokens =>
      match parseTernary (10 * tokens.length + 10) tokens with
      | .error e => .error e
      | .ok (e, []) => .ok e
      | .ok _ => .error (.expressionError "unexpected token after expression")

/-- Modelled from the spec: the arity of a built-in function, from the table of
section 4.2; `none` for an unknown function. -/
def builtinArity (fn : String) : Option Nat := specBuiltinFunctions.lookup fn

/-- Modelled from the spec: `replace(s, old, new)`: every occurrence of `old`,
from the left. -/
def replaceAll (old new : List Char) : Nat → List Char → List Char
  | _, [] => []
  | 0, text => text
  | fuel + 1, c :: cs =>
      if old ≠ [] ∧ old.isPrefixOf (c :: cs) then
        new ++ replaceAll old new fuel ((c :: cs).drop old.length)
      else c :: replaceAll old new fuel cs

/-- Modelled from the spec: a non-negative whole number operand. -/
def wholeNumber (x : ℚ) : Option Nat :=
  if x.den = 1 ∧ 0 ≤ x.num then some x.num.toNat else none

/-- Modelled from the spec: the built-in functions of section 4.2 on arguments
of the right number; an argument of the wrong type is an `ExpressionError`.
Case conversion acts on the letters of ASCII. -/
def applyBuiltin (env : EngineEnv) (fn : String) (args : List Value) :
    Except EngineError Value :=
  match fn, args with
  | "toUpper", [.str s] => .ok (.str ⟨s.data.map Char.toUpper⟩)
  | "toLower", [.str s] => .ok (.str ⟨s.data.map Char.toLower⟩)
  | "len", [.str s] => .ok (.num s.data.length)
  | "substr", [.str s, .num start, .num length] =>
      match wholeNumber start, wholeNumber length with
      | some i, some n => .ok (.str ⟨(s.data.drop i).take n⟩)
      | _, _ => .error (.expressionError "bad operand type")
  | "contains", [.str s, .str sub] =>
      .ok (.bool (s.data.tails.any (fun t => sub.data.isPrefixOf t)))
  | "replace", [.str s, .str old, .str new] =>
      .ok (.str ⟨replaceAll old.data new.data s.data.length s.data⟩)
  | "trim", [.str s] => .ok (.str (trim s))
  | "getCurrentDate", [] => .ok (.str env.currentDate)
  | "formatDate", [.str date, .str pattern] => (env.formatDate date pattern).map Value.str
  | _, _ => .error (.expressionError "bad operand type")

/-- Modelled from the spec: a function call: "calling an unknown function or
supplying the wrong arity is an `ExpressionError`". -/
def callBuiltin (env : EngineEnv) (fn : String) (args : List Value) :
    Except EngineError Value :=
  match builtinArity fn with
  | none => .error (.expressionError "unknown function")
  | some arity =>
      if args.length = arity then applyBuiltin env fn args
      else .error (.expressionError "wrong arity")

/-- Modelled from the spec: the comparison operators: numeric "when both
operands are numeric-looking, otherwise compare as strings". -/
def compareValues (env : EngineEnv) (op : BinOp) (a b : Value) : Except EngineError Value :=
  match numericValue a, numericValue b with
  | some x, some y =>
      match op with
      | .lt => .ok (.bool (decide (x < y)))
      | .le => .ok (.bool (decide (x ≤ y)))
      | .gt => .ok (.bool (decide (y < x)))
      | _ => .ok (.bool (decide (y ≤ x)))
  | _, _ =>
      match stringify env a, stringify env b with
      | some s, some t =>
          match op with
          | .lt => .ok (.bool (decide (s < t)))
          | .le => .ok (.bool (decide (¬ t < s)))
          | .gt => .ok (.bool (decide (t < s)))
          | _ => .ok (.bool (decide (¬ s < t)))
      | _, _ => .error (.expressionError "bad operand type")

/-- Modelled from the spec: the binary operators on two evaluated operands
(section 4.2); `||` and `&&`, which may leave their right operand unevaluated,
are in `eval`. -/
def applyBinary (env : EngineEnv) (op : BinOp) (a b : Value) : Except EngineError Value :=
  match op with
  | .or => .ok (if truthy a then a else b)
  | .and => .ok (if truthy a then b else a)
  | .eq => .ok (.bool (eqv a b))
  | .ne => .ok (.bool (!eqv a b))
  | .lt => compareValues env .lt a b
  | .le => compareValues env .le a b
  | .gt => compareValues env .gt a b
  | .ge => compareValues env .ge a b
  | .add =>
      match a, b with
      | .num x, .num y => .ok (.num (x + y))
      | .str s, _ =>
          match stringify env b with
          | some t => .ok (.str (s ++ t))
          | none => .error (.expressionError "bad operand type")
      | _, .str t =>
          match stringify env a with
          | some s => .ok (.str (s ++ t))
          | none => .error (.expressionError "bad operand type")
      | _, _ => .error (.expressionError "bad operand type")
  | .sub =>
      match a, b with
      | .num x, .num y => .ok (.num (x - y))
      | _, _ => .error (.expressionError "bad operand type")
  | .mul =>
      match a, b with
      | .num x, .num y => .ok (.num (x * y))
      | _, _ => .error (.expressionError "bad operand type")
  | .div =>
      match a, b with
      | .num x, .num y =>
          if y = 0 then .error (.expressionError "division by zero") else .ok (.num (x / y))
      | _, _ => .error (.expressionError "bad operand type")

mutual
/-- Modelled from the spec: the tree-walking evaluator of section 4.2, with
`value` bound to the rule's resolved source value.  `||` returns the left
operand if it is truthy, else the right one; `&&` returns a falsy left
operand, else the right one; the ternary evaluates only the selected branch. -/
def eval (env : EngineEnv) (value : Value) : Expr → Except EngineError Value
  | .num x => .ok (.num x)
  | .str s => .ok (.str s)
  | .value => .ok value
  | .call fn args =>
      match evalArgs env value args with
      | .error e => .error e
      | .ok vs => callBuiltin env fn vs
  | .unary op e =>
      match eval env value e with
      | .error err => .error err
      | .ok v =>
          match op, v with
          | .not, _ => .ok (.bool (!truthy v))
          | .neg, .num x => .ok (.num (-x))
          | .neg, _ => .error (.expressionError "bad operand type")
  | .binary op l r =>
      match eval env value l with
      | .error err => .error err
      | .ok a =>
          match op with
          | .or => if truthy a then .ok a else eval env value r
          | .and => if truthy a then eval env value r else .ok a
          | _ =>
              match eval env value r with
              | .error err => .error err
              | .ok b => applyBinary env op a b
  | .ternary c t e =>
      match eval env value c with
      | .error err => .error err
      | .ok cond => if truthy cond then eval env value t else eval env value e
/-- Modelled from the spec: the arguments of a call, evaluated left to right. -/
def evalArgs (env : EngineEnv) (value : Value) : List Expr → Except EngineError (List Value)
  | [] => .ok []
  | arg :: rest =>
      match eval env value arg with
      | .error err => .error err
      | .ok v =>
          match evalArgs env value rest with
          | .error err => .error err
          | .ok vs => .ok (v :: vs)
end

/-! ### Transform catalog and pipeline (sections 3, 4.3, 4.4) -/

/-- Modelled from the spec: a `MappingRule` of section 3; `default_value` is
`none` when no default is set. -/
structure Rule where
  source_path : List String
  destination_path : List String
  transform_type : String
  transform_logic : String
  default_value : Option Value
  required : Bool

/-- Modelled from the spec: the reasons of a warning: `missing_required`
(section 3) and `transform_failed` (section 7). -/
inductive Reason where
  | missing_required
  | transform_failed
deriving DecidableEq

/-- Modelled from the spec: a warning `{rule_index, source_path, reason}`. -/
structure Warning where
  rule_index : Nat
  source_path : List String
  reason : Reason
deriving DecidableEq

/-- Modelled from the spec: lower-casing of the letters of ASCII, for the
case-insensitive matches of `toBool` and `mapGender`. -/
def lower (s : String) : String := ⟨s.data.map Char.toLower⟩

/-- Modelled from the spec: `capitalize`: "upper-cases the first character,
lower-cases the rest". -/
def capitalize (s : String) : String :=
  match s.data with
  | [] => ""
  | c :: cs => ⟨c.toUpper :: cs.map Char.toLower⟩

/-- Modelled from the spec: the dispatch table of section 4.3 from
`transform_type` to a function of the resolved value. -/
def applyTransform (env : EngineEnv) (rule : Rule) (resolved : Value) :
    Except EngineError Value :=
  if rule.transform_type = "copy" then .ok resolved
  else if rule.transform_type = "toString" then
    match stringify env resolved with
    | some s => .ok (.str s)
    | none => .error (.transformError "not a scalar")
  else if rule.transform_type = "toBool" then
    match (stringify env resolved).map lower with
    | some s =>
        if s ∈ ["true", "1", "yes"] then .ok (.bool true)
        else if s ∈ ["false", "0", "no", ""] then .ok (.bool false)
        else .error (.transformError "not a boolean")
    | none => .error (.transformError "not a boolean")
  else if rule.transform_type = "toUpperCase" then
    match resolved with
    | .str s => .ok (.str ⟨s.data.map Char.toUpper⟩)
    | _ => .error (.transformError "not a string")
  else if rule.transform_type = "toLowerCase" then
    match resolved with
    | .str s => .ok (.str (lower s))
    | _ => .error (.transformError "not a string")
  else if rule.transform_type = "capitalize" then
    match resolved with
    | .str s => .ok (.str (capitalize s))
    | _ => .error (.transformError "not a string")
  else if rule.transform_type = "formatDate" then
    if rule.transform_logic = "" then .ok resolved
    else
      match resolved with
      | .str date => (env.formatDate date rule.transform_logic).map Value.str
      | _ => .error (.transformError "not a date")
  else if rule.transform_type = "mapGender" then
    match resolved with
    | .str s =>
        if lower s = "male" then .ok (.str "M")
        else if lower s = "female" then .ok (.str "F")
        else if lower s = "other" then .ok (.str "O")
        else .ok resolved
    | _ => .ok resolved
  else if rule.transform_type = "expression" then
    match parseExpression rule.transform_logic with
    | .error e => .error e
    | .ok e => eval env resolved e
  else .error (.transformError "unknown transform type")

/-- Modelled from the spec: the output document and the warnings collected so
far. -/
structure RunState where
  output : Value
  warnings : List Warning

/-- Modelled from the spec: a run state with one more warning for rule
`index`. -/
def warn (st : RunState) (index : Nat) (rule : Rule) (reason : Reason) : RunState :=
  { st with warnings := st.warnings ++
      [{ rule_index := index, source_path := rule.source_path, reason := reason }] }

/-- Modelled from the spec: the value a rule resolves and transforms, if any
(steps 1 to 3 of section 4.4): the source value when found, else the default
when one is set; `none` when the source is missing without default, `error`
when the resolution or the transform fails. -/
def produce (env : EngineEnv) (input : Value) (rule : Rule) :
    Except EngineError (Option Value) :=
  match get input rule.source_path with
  | .error e => .error e
  | .ok found =>
      match (match found with
             | some v => some v
             | none => rule.default_value) with
      | none => .ok none
      | some resolved =>
          match applyTransform env rule resolved with
          | .error e => .error e
          | .ok v => .ok (some v)

/-- Modelled from the spec: one rule of the pipeline (section 4.4).  A missing
source without default gives a `missing_required` warning when the rule is
required and is skipped silently otherwise; a produced value is written at the
destination; a failure of the rule (path, expression or transform error)
writes nothing and is recorded as `transform_failed` (section 7). -/
def processRule (env : EngineEnv) (input : Value) (index : Nat) (rule : Rule)
    (st : RunState) : RunState :=
  match produce env input rule with
  | .error _ => warn st index rule .transform_failed
  | .ok none => if rule.required then warn st index rule .missing_required else st
  | .ok (some v) =>
      match set st.output rule.destination_path v with
      | .error _ => warn st index rule .transform_failed
      | .ok out => { st with output := out }

/-- Modelled from the spec: the rules from position `index` on, "processed
strictly in ruleset order". -/
def runFrom (env : EngineEnv) (input : Value) : Nat → List Rule → RunState → RunState
  | _, [], st => st
  | index, rule :: rest, st =>
      runFrom env input (index + 1) rest (processRule env input index rule st)

/-- Modelled from the spec: `run(ruleset, inputDocument) -> (outputDocument,
warnings)` of section 6, from the empty output document. -/
def run (env : EngineEnv) (rules : List Rule) (input : Value) : RunState :=
  runFrom env input 0 rules { output := .map [], warnings := [] }

/-- Modelled from the spec: two paths that part from each other: after a
common prefix they continue with different segments, of which the first
path's is not an index or is another index than the second path's (so that the
two segments name different fields of a mapping and different positions of a
sequence).  A path does not diverge from itself, from a prefix of itself or
from an extension of itself. -/
def diverges : List String → List String → Bool
  | seg :: rest, other :: others =>
      if seg = other then diverges rest others
      else decide (parseIndex seg = none ∨ parseIndex seg ≠ parseIndex other)
  | _, _ => false

/-! ### Sample engine inputs -/

/-- An environment with a fixed date and a date formatter that returns the
date as it is. -/
def sampleEnv : EngineEnv :=
  { currentDate := "2025-07-10"
    formatDate := fun date _ => .ok date
    fractionText := fun _ => "0.5" }

/-- The rule of the scenarios of section 8. -/
def scenarioRule : Rule :=
  { source_path := ["a", "0", "name"]
    destination_path := ["out_name"]
    transform_type := "copy"
    transform_logic := ""
    default_value := none
    required := true }

/-- A rule that copies `source` to `destination`. -/
def copyRule (source destination : List String) : Rule :=
  { source_path := source
    destination_path := destination
    transform_type := "copy"
    transform_logic := ""
    default_value := none
    required := false }

/-- An expression rule with the given `transform_logic`. -/
def expressionRule (logic : String) : Rule :=
  { source_path := ["name"]
    destination_path := ["out"]
    transform_type := "expression"
    transform_logic := logic
    default_value := none
    required := false }

/-- Three rules: two write `x.y`, a third then writes `x`. -/
def overwriteRules : List Rule :=
  [copyRule ["a"] ["x", "y"], copyRule ["b"] ["x", "y"], copyRule ["c"] ["x"]]

/-- An input with the three fields `overwriteRules` read. -/
def overwriteInput : Value :=
  .map [("a", .num 1), ("b", .num 2), ("c", .num 3)]

/-- Two rules that write the same destination `x.y`, with a rule between them
and two after them: one writes the neighbouring field `x.z`, the last has no
source value to write at `x.y`. -/
def conflictRules : List Rule :=
  [copyRule ["a"] ["x", "y"], copyRule ["c"] ["w"], copyRule ["b"] ["x", "y"],
   copyRule ["c"] ["x", "z"], copyRule ["nothing"] ["x", "y"]]

/-- Modelled from the spec: the initial run state: the empty output document
and no warning. -/
def initialRunState : RunState := { output := .map [], warnings := [] }

end Engine

/-! ## Further handlers of `Clients.jsx` -/

/-- The handler `handleCreateClient` (lines 52-68).  `reply` is the outcome of
the awaited `clientsAPI.create`. -/
def handleCreateClient (reply : Except JSError JSValue) (st : ClientsState) :
    ClientsState × List Effect :=
  if strTruthy (trim st.newClientName) then
    match reply with
    | .ok _ =>
        ({ st with newClientName := ""
                   showCreateModal := false
                   creating := false },
         [.createClient (trim st.newClientName),
          .toastSuccess "Client created successfully",
          .loadClients])
    | .error _ =>
        ({ st with creating := false },
         [.createClient (trim st.newClientName),
          .toastError "Failed to create client"])
  else (st, [])

/-- One object of the array `template` of `generateBulkMappingTemplate`. -/
def templateEntry (source destination transformType : String) (required : Bool) : JSValue :=
  JSValue.obj
    [("source_path", JSValue.str source),
     ("destination_path", JSValue.str destination),
     ("transform_type", JSValue.str transformType),
     ("transform_logic", JSValue.str ""),
     ("default_value", JSValue.str ""),
     ("required", JSValue.bool required)]

/-- The entries of the array `template` (lines 185-210). -/
def templateEntries : List JSValue :=
  [templateEntry "applicantDetails.0.entityName" "applicant_name" "copy" true,
   templateEntry "applicantDetails.0.mobileNo" "applicant_mobile" "copy" true,
   templateEntry "applicantDetails.0.gender" "applicant_gender" "mapGender" false]

/-- The function `generateBulkMappingTemplate` (lines 184-212): the bulk text
becomes `JSON.stringify(template, null, 2)`. -/
def generateBulkMappingTemplate (pf : Platform) (st : ClientsState) : ClientsState :=
  { st with bulkMappingText := pf.jsonStringify (JSValue.arr templateEntries) }

/-- A rule object with string paths split already and empty `transform_logic`
and `default_value`. -/
def plainRule (source destination : List String) (transformType : String) (required : Bool) :
    MappingRule :=
  { source_path := segmentsValue source
    destination_path := segmentsValue destination
    transform_type := JSValue.str transformType
    transform_logic := JSValue.str ""
    default_value := JSValue.str ""
    required := JSValue.bool required }

/-- The three rules the bulk template stands for. -/
def templateRules : List MappingRule :=
  [plainRule ["applicantDetails", "0", "entityName"] ["applicant_name"] "copy" true,
   plainRule ["applicantDetails", "0", "mobileNo"] ["applicant_mobile"] "copy" true,
   plainRule ["applicantDetails", "0", "gender"] ["applicant_gender"] "mapGender" false]

/-- The form state as a JSON object, as it would stand in a bulk array. -/
def formObject (newMapping : NewMapping) : JSValue :=
  JSValue.obj
    [("source_path", JSValue.str newMapping.source_path),
     ("destination_path", JSValue.str newMapping.destination_path),
     ("transform_type", JSValue.str newMapping.transform_type),
     ("transform_logic", JSValue.str newMapping.transform_logic),
     ("default_value", JSValue.str newMapping.default_value),
     ("required", JSValue.bool newMapping.required)]

/-- The text `JSON.stringify(template, null, 2)` of the bulk template. -/
def bulkTemplateText : String :=
  "[\n"
    ++ "  \x7b\n"
    ++ "    \"source_path\": \"applicantDetails.0.entityName\",\n"
    ++ "    \"destination_path\": \"applicant_name\",\n"
    ++ "    \"transform_type\": \"copy\",\n"
    ++ "    \"transform_logic\": \"\",\n"
    ++ "    \"default_value\": \"\",\n"
    ++ "    \"required\": true\n"
    ++ "  \x7d,\n"
    ++ "  \x7b\n"
    ++ "    \"source_path\": \"applicantDetails.0.mobileNo\",\n"
    ++ "    \"destination_path\": \"applicant_mobile\",\n"
    ++ "    \"transform_type\": \"copy\",\n"
    ++ "    \"transform_logic\": \"\",\n"
    ++ "    \"default_value\": \"\",\n"
    ++ "    \"required\": true\n"
    ++ "  \x7d,\n"
    ++ "  \x7b\n"
    ++ "    \"source_path\": \"applicantDetails.0.gender\",\n"
    ++ "    \"destination_path\": \"applicant_gender\",\n"
    ++ "    \"transform_type\": \"mapGender\",\n"
    ++ "    \"transform_logic\": \"\",\n"
    ++ "    \"default_value\": \"\",\n"
    ++ "    \"required\": false\n"
    ++ "  \x7d\n"
    ++ "]"

/-- Form events that fill in a rule from `user.name` to `customer.fullName`. -/
def sampleFormEvents : List FormEvent :=
  [.sourcePathChanged "user.name", .destinationPathChanged "customer.fullName",
   .transformTypeSelected "toUpperCase", .requiredChanged true]

/-! ## Response interceptor (`services/api.js`) -/

/-- The part of `error.response` the interceptor reads: `status` and
`data?.error`. -/
structure ErrorResponse where
  status : Nat
  dataError : JSValue

/-- A failed request as the response interceptor receives it: `error.message`
and `error.response`, which is absent when no response arrived. -/
structure RequestFailure where
  message : String
  response : Option ErrorResponse

/-- Actions of the response interceptor. -/
inductive ApiEffect where
  /-- the call `localStorage.removeItem('token')` -/
  | removeToken
  /-- the assignment `window.location.href = href` -/
  | redirect (href : String)
  /-- the call `toast.error(message)` -/
  | toastError (message : JSValue)

/-- What the error handler of the response interceptor leaves behind: the
settled promise (`error e` is `Promise.reject(e)`), the value stored under
`token`, and the actions taken. -/
structure InterceptorOutcome where
  promise : Except RequestFailure JSValue
  token : Option String
  effects : List ApiEffect

/-- The expression `error.response?.status`. -/
def RequestFailure.status (error : RequestFailure) : Option Nat :=
  error.response.map (fun r => r.status)

/-- The expression `error.response?.data?.error`. -/
def RequestFailure.dataError (error : RequestFailure) : JSValue :=
  match error.response with
  | some r => r.dataError
  | none => JSValue.undefined

/-- The error handler of the response interceptor (lines 30-42); `token` is the
value stored under `token` when it runs. -/
def responseErrorInterceptor (error : RequestFailure) (token : Option String) :
    InterceptorOutcome :=
  if error.status = some 401 then
    { promise := .error error
      token := none
      effects := [.removeToken, .redirect "/login",
                  .toastError (JSValue.str "Session expired. Please login again.")] }
  else if error.dataError.truthy then
    { promise := .error error
      token := token
      effects := [.toastError error.dataError] }
  else if strTruthy error.message then
    { promise := .error error
      token := token
      effects := [.toastError (JSValue.str error.message)] }
  else
    { promise := .error error
      token := token
      effects := [] }

/-- A response with status 401. -/
def unauthorizedFailure : RequestFailure :=
  { message := "Request failed with status code 401"
    response := some { status := 401, dataError := JSValue.str "invalid token" } }

/-! ## Operators reference (`ExpressionHelp.jsx`) -/

/-- An entry of the `operators` array (lines 112-126). -/
structure HelpOperator where
  symbol : String
  description : String
  /-- the field `example` -/
  exampleText : String

/-- The array `operators` of the help page (lines 112-126). -/
def helpOperators : List HelpOperator :=
  [{ symbol := "+", description := "Addition or string concatenation",
     exampleText := "5 + 3 → 8, 'Hello' + ' World' → 'Hello World'" },
   { symbol := "-", description := "Subtraction", exampleText := "10 - 3 → 7" },
   { symbol := "*", description := "Multiplication", exampleText := "4 * 5 → 20" },
   { symbol := "/", description := "Division", exampleText := "15 / 3 → 5" },
   { symbol := "==", description := "Equality comparison",
     exampleText := "value == 'test' → true/false" },
   { symbol := "!=", description := "Not equal comparison",
     exampleText := "value != '' → true/false" },
   { symbol := ">", description := "Greater than", exampleText := "len(value) > 5 → true/false" },
   { symbol := "<", description := "Less than", exampleText := "value < 100 → true/false" },
   { symbol := ">=", description := "Greater than or equal",
     exampleText := "value >= 18 → true/false" },
   { symbol := "<=", description := "Less than or equal",
     exampleText := "value <= 65 → true/false" },
   { symbol := "&&", description := "Logical AND",
     exampleText := "value > 0 && value < 100 → true/false" },
   { symbol := "||", description := "Logical OR",
     exampleText := "value == 'admin' || value == 'user' → true/false" },
   { symbol := "?:", description := "Ternary operator (if-else)",
     exampleText := "value > 18 ? 'adult' : 'minor'" }]

/-- The symbols the operators reference lists. -/
def helpOperatorSymbols : List String := helpOperators.map (fun o => o.symbol)

/-- The symbol of a binary operator in the grammar of section 4.2 of the
specification. -/
def binOpSymbol : Engine.BinOp → String
  | .or => "||"
  | .and => "&&"
  | .eq => "=="
  | .ne => "!="
  | .lt => "<"
  | .le => "<="
  | .gt => ">"
  | .ge => ">="
  | .add => "+"
  | .sub => "-"
  | .mul => "*"
  | .div => "/"

/-- The symbol of a unary operator in the grammar of the specification. -/
def unOpSymbol : Engine.UnOp → String
  | .neg => "-"
  | .not => "!"

/-- An operator of the expression grammar: the ternary, a binary or a unary
one. -/
inductive GrammarOperator where
  | ternary
  | binary (op : Engine.BinOp)
  | unary (op : Engine.UnOp)
deriving DecidableEq

/-- The symbol under which an operator is written; the ternary is `?:`. -/
def GrammarOperator.symbol : GrammarOperator → String
  | .ternary => "?:"
  | .binary op => binOpSymbol op
  | .unary op => unOpSymbol op

/-- The operators of the expression grammar as the specification lists them,
lowest precedence first: `?:`, `||`, `&&`, `==`, `!=`, `<`, `<=`, `>`, `>=`,
`+`, `-`, `*`, `/`, and the unary `-` and `!`. -/
def grammarOperators : List GrammarOperator :=
  [.ternary, .binary .or, .binary .and, .binary .eq, .binary .ne, .binary .lt, .binary .le,
   .binary .gt, .binary .ge, .binary .add, .binary .sub, .binary .mul, .binary .div,
   .unary .neg, .unary .not]

/-! ## Lemmas on strings -/

theorem string_mk_eq_empty (l : List Char) : String.mk l = "" ↔ l = [] := by
  constructor
  · intro h
    exact congrArg String.data h
  · intro h
    subst h
    rfl

theorem dropWhile_all_iff {α : Type} (p : α → Bool) (l : List α) :
    (∀ x ∈ l.dropWhile p, p x = true) ↔ ∀ x ∈ l, p x = true := by
  constructor
  · intro h
    by_cases hnil : l.dropWhile p = []
    · exact List.dropWhile_eq_nil_iff.mp hnil
    · have hhead := List.head_dropWhile_not p l hnil
      have := h _ (List.head_mem hnil)
      simp [hhead] at this
  · intro h x hx
    rw [List.dropWhile_eq_nil_iff.mpr h] at hx
    simp at hx

/-- The call `p.trim()` is truthy exactly when `p` is not blank. -/
theorem strTruthy_trim (p : String) : strTruthy (trim p) = !isBlank p := by
  have key : trim p = "" ↔ ∀ x ∈ p.data, isWhiteSpace x = true := by
    unfold trim
    rw [string_mk_eq_empty, List.reverse_eq_nil_iff, List.dropWhile_eq_nil_iff]
    constructor
    · intro h
      exact (dropWhile_all_iff _ _).mp (fun x hx => h x (List.mem_reverse.mpr hx))
    · intro h x hx
      exact (dropWhile_all_iff _ _).mpr h x (List.mem_reverse.mp hx)
  unfold strTruthy isBlank
  by_cases hb : ∀ x ∈ p.data, isWhiteSpace x = true
  · have h1 : trim p = "" := key.mpr hb
    have h2 : p.data.all isWhiteSpace = true := List.all_eq_true.mpr hb
    simp [h1, h2]
  · have h1 : trim p ≠ "" := fun h => hb (key.mp h)
    have h2 : p.data.all isWhiteSpace ≠ true := fun h => hb (List.all_eq_true.mp h)
    simp [h1, h2]

/-- No piece of a list split at separators holds a separator. -/
theorem splitOnP_no_sep {α : Type} (p : α → Bool) (xs : List α) :
    ∀ l ∈ xs.splitOnP p, ∀ x ∈ l, p x = false := by
  induction xs with
  | nil =>
      intro l hl x hx
      simp at hl
      subst hl
      simp at hx
  | cons a as ih =>
      intro l hl x hx
      rw [List.splitOnP_cons] at hl
      by_cases ha : p a = true
      · rw [if_pos ha] at hl
        rcases List.mem_cons.mp hl with h | h
        · subst h
          simp at hx
        · exact ih l h x hx
      · rw [if_neg ha] at hl
        cases hs : List.splitOnP p as with
        | nil => exact absurd hs (List.splitOnP_ne_nil p as)
        | cons hd tl =>
            rw [hs] at hl ih
            simp only [List.modifyHead] at hl
            rcases List.mem_cons.mp hl with h | h
            · subst h
              rcases List.mem_cons.mp hx with h' | h'
              · subst h'
                simpa using ha
              · exact ih hd (List.mem_cons_self _ _) x h'
            · exact ih l (List.mem_cons_of_mem _ h) x hx

/-- No segment returned by `split` holds the separator. -/
theorem split_no_sep (s : String) (sep : Char) :
    ∀ seg ∈ split s sep, sep ∉ seg.data := by
  intro seg hseg hmem
  unfold split at hseg
  obtain ⟨l, hl, rfl⟩ := List.mem_map.mp hseg
  have := splitOnP_no_sep (fun c => c == sep) s.data l hl sep hmem
  simp at this

/-- The segments kept by both authoring routes are the non-blank ones. -/
theorem pathSegments_eq (path : String) :
    pathSegments path = (split path '.').filter (fun p => !isBlank p) := by
  unfold pathSegments
  congr 1
  funext p
  exact strTruthy_trim p

/-! ## Claims on path segments -/

/-- C1, as stated, fails: for the path `a. .b` the form and bulk import send
`[a, b]`, while splitting on `.` and discarding exactly the empty segments
gives `[a, " ", b]`. -/
theorem pathSegments_not_spec :
    pathSegments "a. .b" = ["a", "b"] ∧ specPathSegments "a. .b" = ["a", " ", "b"] ∧
      ¬ (∀ path : String, pathSegments path = specPathSegments path) := by
  refine ⟨by decide, by decide, ?_⟩
  intro h
  exact absurd (h "a. .b") (by decide)

/-- C1, amended: for every path string the segment list sent to the backend, by
the rule form (source and destination) and by bulk import of a string path, is
the path split on `.` with exactly the blank segments (empty or white space
only) discarded; every other segment is kept, untrimmed and in order. -/
theorem pathSegments_discards_blank (path : String) :
    pathSegments path = (split path '.').filter (fun p => !isBlank p) ∧
    (∀ newMapping : NewMapping, newMapping.source_path = path →
      (formMappingRule newMapping).source_path
        = segmentsValue ((split path '.').filter (fun p => !isBlank p))) ∧
    (∀ newMapping : NewMapping, newMapping.destination_path = path →
      (formMappingRule newMapping).destination_path
        = segmentsValue ((split path '.').filter (fun p => !isBlank p))) ∧
    bulkPath (JSValue.str path)
      = .ok (segmentsValue ((split path '.').filter (fun p => !isBlank p))) := by
  refine ⟨pathSegments_eq path, ?_, ?_, ?_⟩
  · intro newMapping h
    simp [formMappingRule, h, pathSegments_eq]
  · intro newMapping h
    simp [formMappingRule, h, pathSegments_eq]
  · simp [bulkPath, pathSegments_eq]

/-- C2: bulk import and the rule form (source and destination) turn a path
string into the array of its `pathSegments`, and every segment of that list is
a non-empty string without `.` and with a non-white-space character. -/
theorem pathSegments_segment_nonempty (path seg : String) (h : seg ∈ pathSegments path) :
    bulkPath (JSValue.str path) = .ok (JSValue.arr ((pathSegments path).map JSValue.str)) ∧
    (∀ newMapping : NewMapping, newMapping.source_path = path →
      (formMappingRule newMapping).source_path
        = JSValue.arr ((pathSegments path).map JSValue.str)) ∧
    (∀ newMapping : NewMapping, newMapping.destination_path = path →
      (formMappingRule newMapping).destination_path
        = JSValue.arr ((pathSegments path).map JSValue.str)) ∧
    seg ≠ "" ∧ '.' ∉ seg.data ∧ ∃ c ∈ seg.data, isWhiteSpace c = false := by
  refine ⟨rfl, fun newMapping hnm => by rw [← hnm]; rfl,
    fun newMapping hnm => by rw [← hnm]; rfl, ?_⟩
  rw [pathSegments_eq] at h
  obtain ⟨hsplit, hblank⟩ := List.mem_filter.mp h
  have hc : ∃ c ∈ seg.data, isWhiteSpace c = false := by
    unfold isBlank at hblank
    by_contra hcon
    push_neg at hcon
    have : seg.data.all isWhiteSpace = true :=
      List.all_eq_true.mpr (fun x hx => by simpa using hcon x hx)
    simp [this] at hblank
  refine ⟨?_, split_no_sep path '.' seg hsplit, hc⟩
  intro hempty
  obtain ⟨c, hcmem, _⟩ := hc
  rw [hempty] at hcmem
  simp at hcmem

theorem pathSegments_segment_nonempty_witness :
    "user" ∈ pathSegments "user..name" ∧
      ("user" ≠ "" ∧ '.' ∉ "user".data ∧ ∃ c ∈ "user".data, isWhiteSpace c = false) :=
  ⟨by decide, (pathSegments_segment_nonempty "user..name" "user" (by decide)).2.2.2⟩

/-! ## Lemmas on bulk import -/

theorem getProp_ok_of_checkRequired (mapping : JSValue) (index : Nat) (field : String)
    (rest : List String) (h : checkRequired mapping index (field :: rest) = .ok ()) :
    ∀ key, ∃ v, getProp mapping key = .ok v := by
  intro key
  cases mapping <;> simp [checkRequired, getProp] at h ⊢

/-- The field-specific conversion succeeds exactly when `bulkPath` does, with
the same value. -/
theorem bulkPathOf_ok_iff (field : String) (p v : JSValue) :
    bulkPathOf field p = .ok v ↔ bulkPath p = .ok v := by
  constructor
  · intro h
    unfold bulkPathOf at h
    split at h <;> simp_all
  · intro h
    unfold bulkPathOf
    rw [h]

/-- What `transformMapping` returns when it returns a rule. -/
theorem transformMapping_inv (mapping : JSValue) (index : Nat) (rule : MappingRule)
    (h : transformMapping mapping index = .ok rule) :
    ∃ sp dp tt tl dv rq,
      getProp mapping "source_path" = .ok sp ∧ getProp mapping "destination_path" = .ok dp ∧
      getProp mapping "transform_type" = .ok tt ∧ getProp mapping "transform_logic" = .ok tl ∧
      getProp mapping "default_value" = .ok dv ∧ getProp mapping "required" = .ok rq ∧
      sp.truthy = true ∧ dp.truthy = true ∧ tt.truthy = true ∧
      bulkPath sp = .ok rule.source_path ∧ bulkPath dp = .ok rule.destination_path ∧
      rule.transform_type = tt ∧ rule.transform_logic = tl.or (JSValue.str "") ∧
      rule.default_value = dv.or (JSValue.str "") ∧
      rule.required = rq.or (JSValue.bool false) := by
  unfold transformMapping at h
  cases hc : checkRequired mapping index requiredFields with
  | error e => simp [hc, bind, Except.bind] at h
  | ok u =>
      have hget := getProp_ok_of_checkRequired mapping index _ _ hc
      obtain ⟨sp, hsp⟩ := hget "source_path"
      obtain ⟨dp, hdp⟩ := hget "destination_path"
      obtain ⟨tt, htt⟩ := hget "transform_type"
      obtain ⟨tl, htl⟩ := hget "transform_logic"
      obtain ⟨dv, hdv⟩ := hget "default_value"
      obtain ⟨rq, hrq⟩ := hget "required"
      refine ⟨sp, dp, tt, tl, dv, rq, hsp, hdp, htt, htl, hdv, hrq, ?_⟩
      have hchk := hc
      simp only [requiredFields, checkRequired, hsp, hdp, htt] at hchk
      have h1 : sp.truthy = true := by
        by_contra hn
        simp [hn] at hchk
      have h2 : dp.truthy = true := by
        by_contra hn
        simp [h1, hn] at hchk
      have h3 : tt.truthy = true := by
        by_contra hn
        simp [h1, h2, hn] at hchk
      refine ⟨h1, h2, h3, ?_⟩
      simp only [hc, hsp, hdp, htt, htl, hdv, hrq, bind, Except.bind, pure, Except.pure] at h
      cases hbs : bulkPathOf "source_path" sp with
      | error e => simp [hbs] at h
      | ok src =>
          cases hbd : bulkPathOf "destination_path" dp with
          | error e => simp [hbs, hbd] at h
          | ok dst =>
              simp only [hbs, hbd, Except.ok.injEq] at h
              subst h
              exact ⟨(bulkPathOf_ok_iff _ _ _).mp hbs, (bulkPathOf_ok_iff _ _ _).mp hbd,
                rfl, rfl, rfl, rfl⟩

/-- What `transformMapping` returns on a rule that has the three required fields
and convertible paths. -/
theorem transformMapping_of (mapping : JSValue) (index : Nat)
    (sp dp tt tl dv rq src dst : JSValue)
    (hsp : getProp mapping "source_path" = .ok sp)
    (hdp : getProp mapping "destination_path" = .ok dp)
    (htt : getProp mapping "transform_type" = .ok tt)
    (htl : getProp mapping "transform_logic" = .ok tl)
    (hdv : getProp mapping "default_value" = .ok dv)
    (hrq : getProp mapping "required" = .ok rq)
    (h1 : sp.truthy = true) (h2 : dp.truthy = true) (h3 : tt.truthy = true)
    (hbs : bulkPath sp = .ok src) (hbd : bulkPath dp = .ok dst) :
    transformMapping mapping index = .ok
      { source_path := src
        destination_path := dst
        transform_type := tt
        transform_logic := tl.or (JSValue.str "")
        default_value := dv.or (JSValue.str "")
        required := rq.or (JSValue.bool false) } := by
  have hc : checkRequired mapping index requiredFields = .ok () := by
    simp [requiredFields, checkRequired, hsp, hdp, htt, h1, h2, h3]
  simp [transformMapping, hc, hsp, hdp, htt, htl, hdv, hrq, (bulkPathOf_ok_iff _ _ _).mpr hbs,
    (bulkPathOf_ok_iff _ _ _).mpr hbd, bind, Except.bind, pure, Except.pure]

theorem checkRequired_eq_find (mapping : JSValue) (index : Nat)
    (hget : ∀ key, ∃ v, getProp mapping key = .ok v) (fields : List String) :
    checkRequired mapping index fields =
      match fields.find? (fieldMissing mapping) with
      | some f => .error (.error (missingFieldMessage f index))
      | none => .ok () := by
  induction fields with
  | nil => simp [checkRequired]
  | cons field rest ih =>
      obtain ⟨v, hv⟩ := hget field
      by_cases ht : v.truthy = true
      · have hm : fieldMissing mapping field = false := by simp [fieldMissing, hv, ht]
        simp [checkRequired, hv, ht, List.find?_cons, hm, ih]
      · have hm : fieldMissing mapping field = true := by
          simp [fieldMissing, hv, ht]
        simp [checkRequired, hv, ht, List.find?_cons, hm]

theorem getProp_ok_of_isRuleObject (mapping : JSValue) (h : isRuleObject mapping = true) :
    ∀ key, ∃ v, getProp mapping key = .ok v := by
  intro key
  cases mapping <;> simp [isRuleObject, getProp] at h ⊢

/-- A rule whose first missing required field is `f` is rejected with the
message naming `f` and the rule's 1-based position. -/
theorem transformMapping_missing (mapping : JSValue) (index : Nat) (f : String)
    (hget : ∀ key, ∃ v, getProp mapping key = .ok v)
    (hf : requiredFields.find? (fieldMissing mapping) = some f) :
    transformMapping mapping index = .error (.error (missingFieldMessage f index)) := by
  have hc := checkRequired_eq_find mapping index hget requiredFields
  rw [hf] at hc
  simp [transformMapping, hc, bind, Except.bind]

theorem bulkPath_ok_of_pathLike (p : JSValue) (hp : isPathLike p = true)
    (ht : p.truthy = true) : ∃ segs, bulkPath p = .ok segs := by
  cases p <;> simp [isPathLike, JSValue.truthy, bulkPath] at hp ht ⊢

/-- A rule object with no missing required field is accepted. -/
theorem transformMapping_accepts (mapping : JSValue) (index : Nat)
    (hobj : isRuleObject mapping = true)
    (hf : ∀ g ∈ requiredFields, fieldMissing mapping g = false) :
    ∃ rule, transformMapping mapping index = .ok rule := by
  cases mapping with
  | obj props =>
      simp only [isRuleObject, Bool.and_eq_true] at hobj
      have h1 := hf "source_path" (by simp [requiredFields])
      have h2 := hf "destination_path" (by simp [requiredFields])
      have h3 := hf "transform_type" (by simp [requiredFields])
      simp only [fieldMissing, getProp, Bool.not_eq_false'] at h1 h2 h3
      obtain ⟨src, hsrc⟩ := bulkPath_ok_of_pathLike _ hobj.1 h1
      obtain ⟨dst, hdst⟩ := bulkPath_ok_of_pathLike _ hobj.2 h2
      exact ⟨_, transformMapping_of (JSValue.obj props) index _ _ _ _ _ _ src dst
        rfl rfl rfl rfl rfl rfl h1 h2 h3 hsrc hdst⟩
  | _ => simp [isRuleObject] at hobj

/-- A successful `map` keeps length and positions: rule `i` of the result is
the callback's value on element `i` at position `index + i`. -/
theorem mapFrom_ok (bulk : List JSValue) :
    ∀ (index : Nat) (rules : List MappingRule), mapFrom index bulk = .ok rules →
      rules.length = bulk.length ∧
      ∀ i mapping, bulk[i]? = some mapping →
        ∃ rule, rules[i]? = some rule ∧ transformMapping mapping (index + i) = .ok rule := by
  induction bulk with
  | nil =>
      intro index rules h
      simp [mapFrom] at h
      subst h
      simp
  | cons m rest ih =>
      intro index rules h
      unfold mapFrom at h
      cases hm : transformMapping m index with
      | error e => simp [hm] at h
      | ok rule =>
          cases hr : mapFrom (index + 1) rest with
          | error e => simp [hm, hr] at h
          | ok rs =>
              simp only [hm, hr, Except.ok.injEq] at h
              subst h
              obtain ⟨hlen, hall⟩ := ih (index + 1) rs hr
              refine ⟨by simp [hlen], ?_⟩
              intro i mapping hi
              cases i with
              | zero =>
                  simp at hi
                  subst hi
                  exact ⟨rule, by simp, by simpa using hm⟩
              | succ j =>
                  simp at hi
                  obtain ⟨r, hr1, hr2⟩ := hall j mapping hi
                  refine ⟨r, by simpa using hr1, ?_⟩
                  have : index + (j + 1) = index + 1 + j := by omega
                  rw [this]
                  exact hr2

/-- The `map` stops at the first element the callback rejects. -/
theorem mapFrom_first_error (bulk : List JSValue) :
    ∀ (index k : Nat) (mapping : JSValue) (e : JSError), bulk[k]? = some mapping →
      (∀ j m, j < k → bulk[j]? = some m → ∃ rule, transformMapping m (index + j) = .ok rule) →
      transformMapping mapping (index + k) = .error e →
      mapFrom index bulk = .error e := by
  induction bulk with
  | nil =>
      intro index k mapping e hk
      simp at hk
  | cons m rest ih =>
      intro index k mapping e hk hprev herr
      cases k with
      | zero =>
          simp at hk
          subst hk
          simp only [Nat.add_zero] at herr
          simp [mapFrom, herr]
      | succ j =>
          simp at hk
          obtain ⟨rule, hrule⟩ := hprev 0 m (by omega) (by simp)
          simp only [Nat.add_zero] at hrule
          have hrest : mapFrom (index + 1) rest = .error e := by
            apply ih (index + 1) j mapping e hk
            · intro i mi hi hmi
              have := hprev (i + 1) mi (by omega) (by simpa using hmi)
              have heq : index + (i + 1) = index + 1 + i := by omega
              rw [heq] at this
              exact this
            · have heq : index + (j + 1) = index + 1 + j := by omega
              rw [heq] at herr
              exact herr
          simp [mapFrom, hrule, hrest]

/-- The `map` succeeds when the callback accepts every element. -/
theorem mapFrom_all_ok (bulk : List JSValue) :
    ∀ (index : Nat),
      (∀ j m, bulk[j]? = some m → ∃ rule, transformMapping m (index + j) = .ok rule) →
      ∃ rules, mapFrom index bulk = .ok rules := by
  induction bulk with
  | nil =>
      intro index _
      exact ⟨[], rfl⟩
  | cons m rest ih =>
      intro index hall
      obtain ⟨rule, hrule⟩ := hall 0 m (by simp)
      simp only [Nat.add_zero] at hrule
      obtain ⟨rs, hrs⟩ := ih (index + 1) (by
        intro j mj hj
        have := hall (j + 1) mj (by simpa using hj)
        have heq : index + (j + 1) = index + 1 + j := by omega
        rw [heq] at this
        exact this)
      exact ⟨rule :: rs, by simp [mapFrom, hrule, hrs]⟩

theorem missingFieldMessage_truthy (field : String) (index : Nat) :
    strTruthy (missingFieldMessage field index) = true := by
  have : missingFieldMessage field index ≠ "" := by
    intro h
    have := congrArg String.data h
    simp [missingFieldMessage, String.data_append] at this
  simp [strTruthy, this]

/-- Where a failing `map` failed: at the first element the callback rejects. -/
theorem mapFrom_error_inv (bulk : List JSValue) :
    ∀ (index : Nat) (e : JSError), mapFrom index bulk = .error e →
      ∃ k mapping, bulk[k]? = some mapping ∧ transformMapping mapping (index + k) = .error e ∧
        ∀ j m, j < k → bulk[j]? = some m →
          ∃ rule, transformMapping m (index + j) = .ok rule := by
  induction bulk with
  | nil =>
      intro index e h
      simp [mapFrom] at h
  | cons m rest ih =>
      intro index e h
      unfold mapFrom at h
      cases hm : transformMapping m index with
      | error e1 =>
          simp only [hm, Except.error.injEq] at h
          subst h
          refine ⟨0, m, by simp, by simpa using hm, ?_⟩
          intro j mj hj
          omega
      | ok rule =>
          cases hr : mapFrom (index + 1) rest with
          | ok rs => simp [hm, hr] at h
          | error e2 =>
              simp only [hm, hr, Except.error.injEq] at h
              subst h
              obtain ⟨k, mapping, hk, herr, hprev⟩ := ih (index + 1) e2 hr
              refine ⟨k + 1, mapping, by simpa using hk, ?_, ?_⟩
              · have heq : index + (k + 1) = index + 1 + k := by omega
                rw [heq]
                exact herr
              · intro j mj hj hmj
                cases j with
                | zero =>
                    simp at hmj
                    subst hmj
                    exact ⟨rule, by simpa using hm⟩
                | succ i =>
                    simp at hmj
                    have := hprev i mj (by omega) hmj
                    have heq : index + (i + 1) = index + 1 + i := by omega
                    rw [heq]
                    exact this

/-- On a rule object the callback either accepts, when no required field is
missing, or throws the message of the first missing one. -/
theorem transformMapping_cases (mapping : JSValue) (index : Nat)
    (hobj : isRuleObject mapping = true) :
    ((∀ g ∈ requiredFields, fieldMissing mapping g = false) ∧
        ∃ rule, transformMapping mapping index = .ok rule) ∨
    (∃ f, requiredFields.find? (fieldMissing mapping) = some f ∧
        transformMapping mapping index = .error (.error (missingFieldMessage f index))) := by
  cases hfind : requiredFields.find? (fieldMissing mapping) with
  | none =>
      left
      have hall : ∀ g ∈ requiredFields, fieldMissing mapping g = false := by
        intro g hg
        have := List.find?_eq_none.mp hfind g hg
        simpa using this
      exact ⟨hall, transformMapping_accepts mapping index hobj hall⟩
  | some f =>
      right
      exact ⟨f, rfl, transformMapping_missing mapping index f
        (getProp_ok_of_isRuleObject mapping hobj) hfind⟩

/-- The request of an accepted bulk import carries the whole transformed list. -/
theorem handleBulk_submits (pf : Platform) (reply : Except JSError JSValue)
    (st : ClientsState) (client : Client) (bulk : List JSValue) (rules : List MappingRule)
    (hc : st.selectedClient = some client)
    (ht : strTruthy (trim st.bulkMappingText) = true)
    (hp : pf.jsonParse st.bulkMappingText = some (JSValue.arr bulk))
    (hr : transformedMappings bulk = .ok rules) :
    submittedRules (handleBulkCreateMapping pf reply st).2 = [rules] := by
  unfold handleBulkCreateMapping
  simp only [hc, ht, hp, hr, if_true]
  cases reply <;> simp [bulkCatch, submittedRules]

/-- A bulk import whose validation throws goes to the `catch` block with no
request made. -/
theorem handleBulk_rejects (pf : Platform) (reply : Except JSError JSValue)
    (st : ClientsState) (client : Client) (bulk : List JSValue) (e : JSError)
    (hc : st.selectedClient = some client)
    (ht : strTruthy (trim st.bulkMappingText) = true)
    (hp : pf.jsonParse st.bulkMappingText = some (JSValue.arr bulk))
    (hr : transformedMappings bulk = .error e) :
    handleBulkCreateMapping pf reply st = bulkCatch st [] e := by
  unfold handleBulkCreateMapping
  simp only [hc, ht, hp, hr, if_true]

/-! ## Claims on submitted rules -/

/-- C3, evaluated where the code breaks it: a form whose source path is the
non-empty text `.` is submitted with an empty `source_path` list, and a bulk
rule that passes the required-field check with source path `.` and destination
path `[]` is submitted with both lists empty. -/
theorem empty_path_submitted :
    dotForm.source_path ≠ "" ∧ dotForm.destination_path ≠ "" ∧
    submittedRules (handleCreateMapping (.ok JSValue.null) (formState dotForm)).2 =
      [[{ source_path := JSValue.arr []
          destination_path := JSValue.arr [JSValue.str "out"]
          transform_type := JSValue.str "copy"
          transform_logic := JSValue.str ""
          default_value := JSValue.str ""
          required := JSValue.bool false }]] ∧
    checkRequired dotRule 0 requiredFields = .ok () ∧
    transformedMappings [dotRule] =
      .ok [{ source_path := JSValue.arr []
             destination_path := JSValue.arr []
             transform_type := JSValue.str "copy"
             transform_logic := JSValue.str ""
             default_value := JSValue.str ""
             required := JSValue.bool false }] :=
  ⟨by decide, by decide, rfl, rfl, rfl⟩

/-- C4: when bulk import is accepted, the request carries the transformed list,
and a rule whose `source_path` (or `destination_path`) is already an array is
submitted with that very array: same segments, same order, nothing split,
trimmed or dropped. -/
theorem bulk_array_path_unchanged (pf : Platform) (reply : Except JSError JSValue)
    (st : ClientsState) (client : Client) (bulk : List JSValue) (rules : List MappingRule)
    (hc : st.selectedClient = some client)
    (ht : strTruthy (trim st.bulkMappingText) = true)
    (hp : pf.jsonParse st.bulkMappingText = some (JSValue.arr bulk))
    (hr : transformedMappings bulk = .ok rules) :
    submittedRules (handleBulkCreateMapping pf reply st).2 = [rules] ∧
    ∀ (i : Nat) (mapping : JSValue) (items : List JSValue), bulk[i]? = some mapping →
      (getProp mapping "source_path" = .ok (JSValue.arr items) →
        ∃ rule : MappingRule, rules[i]? = some rule ∧ rule.source_path = JSValue.arr items) ∧
      (getProp mapping "destination_path" = .ok (JSValue.arr items) →
        ∃ rule : MappingRule, rules[i]? = some rule ∧
          rule.destination_path = JSValue.arr items) := by
  refine ⟨handleBulk_submits pf reply st client bulk rules hc ht hp hr, ?_⟩
  intro i mapping items hi
  obtain ⟨rule, hrule, htm⟩ := (mapFrom_ok bulk 0 rules hr).2 i mapping hi
  obtain ⟨sp, dp, tt, tl, dv, rq, hsp, hdp, _, _, _, _, _, _, _, hbs, hbd, _⟩ :=
    transformMapping_inv mapping (0 + i) rule htm
  constructor
  · intro h
    rw [h] at hsp
    cases hsp
    refine ⟨rule, hrule, ?_⟩
    simp [bulkPath] at hbs
    exact hbs.symm
  · intro h
    rw [h] at hdp
    cases hdp
    refine ⟨rule, hrule, ?_⟩
    simp [bulkPath] at hbd
    exact hbd.symm

theorem bulk_array_path_unchanged_witness :
    ∃ rule : MappingRule, [splitPathSubmitted][0]? = some rule ∧
      rule.source_path = JSValue.arr [JSValue.str "a", JSValue.str " x.y "] :=
  ((bulk_array_path_unchanged (platformAt splitPathText (JSValue.arr [splitPathRule]))
      (.ok JSValue.null) (bulkState splitPathText) sampleClient [splitPathRule] _
      rfl (by decide) rfl rfl).2 0 splitPathRule
      [JSValue.str "a", JSValue.str " x.y "] rfl).1 rfl

/-- C5, as stated, fails: a rule with `required: "yes"` is accepted and is
submitted with `required` equal to the text `yes`, which is not a boolean. -/
theorem bulk_required_not_boolean :
    ∃ rule, transformedMappings [textRequiredRule] = .ok [rule] ∧
      rule.required = JSValue.str "yes" ∧ rule.required.isBoolean = false :=
  ⟨_, rfl, rfl, rfl⟩

/-- C5, amended: when bulk import is accepted, every submitted rule carries
`required || false` of its input rule: `false` when the input has no `required`
field, the input's value when that is a boolean, hence a boolean in both cases;
any other truthy value is passed on as it is. -/
theorem bulk_required_default (pf : Platform) (reply : Except JSError JSValue)
    (st : ClientsState) (client : Client) (bulk : List JSValue) (rules : List MappingRule)
    (hc : st.selectedClient = some client)
    (ht : strTruthy (trim st.bulkMappingText) = true)
    (hp : pf.jsonParse st.bulkMappingText = some (JSValue.arr bulk))
    (hr : transformedMappings bulk = .ok rules) :
    submittedRules (handleBulkCreateMapping pf reply st).2 = [rules] ∧
    ∀ (i : Nat) (mapping : JSValue), bulk[i]? = some mapping →
      ∃ (rule : MappingRule) (rq : JSValue), rules[i]? = some rule ∧
        getProp mapping "required" = .ok rq ∧
        rule.required = rq.or (JSValue.bool false) ∧
        (rq = JSValue.undefined → rule.required = JSValue.bool false) ∧
        (∀ b, rq = JSValue.bool b → rule.required = JSValue.bool b) ∧
        (rq = JSValue.undefined ∨ rq.isBoolean = true → rule.required.isBoolean = true) := by
  refine ⟨handleBulk_submits pf reply st client bulk rules hc ht hp hr, ?_⟩
  intro i mapping hi
  obtain ⟨rule, hrule, htm⟩ := (mapFrom_ok bulk 0 rules hr).2 i mapping hi
  obtain ⟨_, _, _, _, _, rq, _, _, _, _, _, hrq, _, _, _, _, _, _, _, _, hreq⟩ :=
    transformMapping_inv mapping (0 + i) rule htm
  refine ⟨rule, rq, hrule, hrq, hreq, ?_, ?_, ?_⟩
  · intro h
    rw [hreq, h]
    rfl
  · intro b h
    rw [hreq, h]
    cases b <;> rfl
  · intro h
    rw [hreq]
    cases rq <;> simp [JSValue.isBoolean, JSValue.or, JSValue.truthy] at h ⊢
    case bool b => cases b <;> simp

theorem bulk_required_default_witness :
    ∃ (rule : MappingRule) (rq : JSValue), [splitPathSubmitted][0]? = some rule ∧
      getProp splitPathRule "required" = .ok rq ∧
      rule.required = rq.or (JSValue.bool false) ∧
      (rq = JSValue.undefined → rule.required = JSValue.bool false) ∧
      (∀ b, rq = JSValue.bool b → rule.required = JSValue.bool b) ∧
      (rq = JSValue.undefined ∨ rq.isBoolean = true → rule.required.isBoolean = true) :=
  (bulk_required_default (platformAt splitPathText (JSValue.arr [splitPathRule]))
      (.ok JSValue.null) (bulkState splitPathText) sampleClient [splitPathRule] _
      rfl (by decide) rfl rfl).2 0 splitPathRule rfl

/-- C6: on a parsed array of rule objects (path fields, where present, strings
or arrays) the validation of `handleBulkCreateMapping` throws if and only if
some rule has a missing or falsy required field; the exception is
`Missing required field '<f>' in mapping rule <k+1>` for the first such rule
(0-based position `k`) and its first missing field `f`; the handler then makes
no request and shows that message; and when the backend accepts the request, an
error toast appears exactly in that case. -/
theorem bulk_rejects_iff_missing_field (bulk : List JSValue)
    (hobj : ∀ m ∈ bulk, isRuleObject m = true) :
    ((∃ e, transformedMappings bulk = .error e) ↔
      ∃ m ∈ bulk, ∃ f ∈ requiredFields, fieldMissing m f = true) ∧
    (∀ (k : Nat) (mapping : JSValue) (f : String), bulk[k]? = some mapping →
      (∀ (j : Nat) (m : JSValue), j < k → bulk[j]? = some m →
        ∀ g ∈ requiredFields, fieldMissing m g = false) →
      requiredFields.find? (fieldMissing mapping) = some f →
      transformedMappings bulk = .error (.error
        ("Missing required field '" ++ f ++ "' in mapping rule " ++ toString (k + 1))) ∧
      ∀ (pf : Platform) (reply : Except JSError JSValue) (st : ClientsState) (client : Client),
        st.selectedClient = some client → strTruthy (trim st.bulkMappingText) = true →
        pf.jsonParse st.bulkMappingText = some (JSValue.arr bulk) →
        handleBulkCreateMapping pf reply st =
          ({ st with savingBulkMapping := false },
           [.consoleError "Bulk mapping error:" (.error
              ("Missing required field '" ++ f ++ "' in mapping rule " ++ toString (k + 1))),
            .toastError
              ("Missing required field '" ++ f ++ "' in mapping rule "
                ++ toString (k + 1))])) ∧
    (∀ (pf : Platform) (result : JSValue) (st : ClientsState) (client : Client),
      st.selectedClient = some client → strTruthy (trim st.bulkMappingText) = true →
      pf.jsonParse st.bulkMappingText = some (JSValue.arr bulk) →
      ((∃ message, Effect.toastError message ∈ (handleBulkCreateMapping pf (.ok result) st).2) ↔
        ∃ m ∈ bulk, ∃ f ∈ requiredFields, fieldMissing m f = true)) := by
  have hiff : (∃ e, transformedMappings bulk = .error e) ↔
      ∃ m ∈ bulk, ∃ f ∈ requiredFields, fieldMissing m f = true := by
    constructor
    · rintro ⟨e, he⟩
      obtain ⟨k, mapping, hk, herr, _⟩ := mapFrom_error_inv bulk 0 e he
      have hmem : mapping ∈ bulk := List.getElem?_mem hk
      rcases transformMapping_cases mapping (0 + k) (hobj mapping hmem) with h | h
      · obtain ⟨_, rule, hrule⟩ := h
        rw [hrule] at herr
        cases herr
      · obtain ⟨f, hf, _⟩ := h
        exact ⟨mapping, hmem, f, List.mem_of_find?_eq_some hf, List.find?_some hf⟩
    · rintro ⟨m, hm, f, hf, hmiss⟩
      by_contra hno
      have hall : ∀ (j : Nat) (mj : JSValue), bulk[j]? = some mj →
          ∃ rule, transformMapping mj (0 + j) = .ok rule := by
        intro j mj hj
        cases htm : transformMapping mj (0 + j) with
        | ok rule => exact ⟨rule, rfl⟩
        | error e =>
            exfalso
            apply hno
            cases hres : transformedMappings bulk with
            | error e2 => exact ⟨e2, rfl⟩
            | ok rules =>
                obtain ⟨r, _, hr2⟩ := (mapFrom_ok bulk 0 rules hres).2 j mj hj
                rw [htm] at hr2
                cases hr2
      obtain ⟨i, hi⟩ := List.getElem?_of_mem hm
      obtain ⟨rule, hrule⟩ := hall i m hi
      rcases transformMapping_cases m (0 + i) (hobj m hm) with h | h
      · rw [h.1 f hf] at hmiss
        cases hmiss
      · obtain ⟨f2, _, herr⟩ := h
        rw [herr] at hrule
        cases hrule
  have hfirst : ∀ (k : Nat) (mapping : JSValue) (f : String), bulk[k]? = some mapping →
      (∀ (j : Nat) (m : JSValue), j < k → bulk[j]? = some m →
        ∀ g ∈ requiredFields, fieldMissing m g = false) →
      requiredFields.find? (fieldMissing mapping) = some f →
      transformedMappings bulk = .error (.error (missingFieldMessage f k)) := by
    intro k mapping f hk hprev hf
    apply mapFrom_first_error bulk 0 k mapping _ hk
    · intro j m hj hm
      exact transformMapping_accepts m (0 + j) (hobj m (List.getElem?_mem hm))
        (hprev j m hj hm)
    · have := transformMapping_missing mapping (0 + k) f
        (getProp_ok_of_isRuleObject mapping (hobj mapping (List.getElem?_mem hk))) hf
      simpa using this
  refine ⟨hiff, ?_, ?_⟩
  · intro k mapping f hk hprev hf
    have herr := hfirst k mapping f hk hprev hf
    refine ⟨herr, ?_⟩
    intro pf reply st client hc ht hp
    rw [handleBulk_rejects pf reply st client bulk _ hc ht hp herr]
    have hmsg := missingFieldMessage_truthy f k
    simp only [missingFieldMessage] at hmsg
    simp [bulkCatch, JSError.name, JSError.message, hmsg, missingFieldMessage]
  · intro pf result st client hc ht hp
    rw [← hiff]
    constructor
    · rintro ⟨message, hmem⟩
      cases hres : transformedMappings bulk with
      | error e => exact ⟨e, rfl⟩
      | ok rules =>
          exfalso
          unfold handleBulkCreateMapping at hmem
          simp [hc, ht, hp, hres] at hmem
    · rintro ⟨e, he⟩
      rw [handleBulk_rejects pf (.ok result) st client bulk e hc ht hp he]
      simp only [bulkCatch, List.nil_append]
      exact ⟨_, List.mem_cons_of_mem _ (List.mem_singleton.mpr rfl)⟩

theorem bulk_rejects_iff_missing_field_witness :
    transformedMappings [splitPathRule, incompleteRule] = .error (.error
      ("Missing required field '" ++ "destination_path" ++ "' in mapping rule "
        ++ toString (1 + 1))) :=
  ((bulk_rejects_iff_missing_field [splitPathRule, incompleteRule]
      (by simp [splitPathRule, incompleteRule, isRuleObject, lookupProp, isPathLike])).2.1
    1 incompleteRule "destination_path" rfl
    (by
      intro j m hj hm
      have hj0 : j = 0 := by omega
      subst hj0
      simp at hm
      subst hm
      decide)
    (by decide)).1

/-- C7: when bulk import is accepted, the list passed to `mappingAPI.create`
has the length of the input array and its `i`-th rule is the one the callback
builds from the `i`-th input rule (at index `i`): order is preserved. -/
theorem bulk_preserves_order (pf : Platform) (reply : Except JSError JSValue)
    (st : ClientsState) (client : Client) (bulk : List JSValue) (rules : List MappingRule)
    (hc : st.selectedClient = some client)
    (ht : strTruthy (trim st.bulkMappingText) = true)
    (hp : pf.jsonParse st.bulkMappingText = some (JSValue.arr bulk))
    (hr : transformedMappings bulk = .ok rules) :
    (handleBulkCreateMapping pf reply st).2.head? = some (.createMappings client.id rules) ∧
    submittedRules (handleBulkCreateMapping pf reply st).2 = [rules] ∧
    rules.length = bulk.length ∧
    ∀ (i : Nat) (mapping : JSValue), bulk[i]? = some mapping →
      ∃ rule : MappingRule, rules[i]? = some rule ∧ transformMapping mapping i = .ok rule := by
  refine ⟨?_, handleBulk_submits pf reply st client bulk rules hc ht hp hr,
    (mapFrom_ok bulk 0 rules hr).1, ?_⟩
  · unfold handleBulkCreateMapping
    simp only [hc, ht, hp, hr, if_true]
    cases reply <;> simp [bulkCatch]
  · intro i mapping hi
    obtain ⟨rule, h1, h2⟩ := (mapFrom_ok bulk 0 rules hr).2 i mapping hi
    exact ⟨rule, h1, by simpa using h2⟩

set_option maxRecDepth 100000 in
theorem bulk_preserves_order_witness :
    templateRules.length = templateEntries.length ∧
    ∃ rule : MappingRule, templateRules[2]? = some rule ∧
      transformMapping
        (templateEntry "applicantDetails.0.gender" "applicant_gender" "mapGender" false) 2
        = .ok rule :=
  ⟨(bulk_preserves_order (platformAt bulkTemplateText (JSValue.arr templateEntries))
      (.ok JSValue.null) (bulkState bulkTemplateText) sampleClient templateEntries templateRules
      rfl rfl rfl rfl).2.2.1,
   (bulk_preserves_order (platformAt bulkTemplateText (JSValue.arr templateEntries))
      (.ok JSValue.null) (bulkState bulkTemplateText) sampleClient templateEntries templateRules
      rfl rfl rfl rfl).2.2.2 2 _ rfl⟩

/-! ## Export and import -/

theorem string_mk_data_map (segs : List String) :
    (segs.map String.data).map String.mk = segs := by
  induction segs with
  | nil => rfl
  | cons s rest ih => simp [ih]

/-- Splitting the joined text of a well-formed stored path gives the path back. -/
theorem pathSegments_join (path : List String) (h : isStoredPath path = true) :
    pathSegments (join path '.') = path := by
  simp only [isStoredPath, Bool.and_eq_true, Bool.not_eq_true', List.all_eq_true] at h
  obtain ⟨hne, hall⟩ := h
  have hne2 : path ≠ [] := by
    intro hp
    simp [hp] at hne
  have hsplit : split (join path '.') '.' = path := by
    unfold split join
    have := List.splitOn_intercalate (path.map String.data) '.'
      (by
        intro l hl
        obtain ⟨seg, hseg, rfl⟩ := List.mem_map.mp hl
        have := (hall seg hseg).1
        simpa using this)
      (by simpa using hne2)
    simp only [this]
    exact string_mk_data_map path
  rw [pathSegments_eq, hsplit]
  apply List.filter_eq_self.mpr
  intro seg hseg
  have := (hall seg hseg).2
  simp [this]

theorem join_truthy (path : List String) (h : isStoredPath path = true) :
    strTruthy (join path '.') = true := by
  have hseg := pathSegments_join path h
  by_contra hn
  have hempty : join path '.' = "" := by
    simpa [strTruthy] using hn
  rw [hempty] at hseg
  have hnil : pathSegments "" = [] := by decide
  rw [hnil] at hseg
  simp only [isStoredPath, Bool.and_eq_true, Bool.not_eq_true'] at h
  rw [← hseg] at h
  simp at h

/-- Bulk import rebuilds a well-formed stored rule from its exported object. -/
theorem transformMapping_exported (mapping : StoredMapping) (index : Nat)
    (h : isWellFormedStored mapping = true) :
    transformMapping
      (JSValue.obj
        [("source_path", JSValue.str (join mapping.source_path '.')),
         ("destination_path", JSValue.str (join mapping.destination_path '.')),
         ("transform_type", mapping.transform_type),
         ("transform_logic", mapping.transform_logic),
         ("default_value", mapping.default_value),
         ("required", mapping.required)]) index = .ok (storedRule mapping) := by
  simp only [isWellFormedStored, Bool.and_eq_true] at h
  obtain ⟨⟨⟨⟨⟨hs, hd⟩, ht⟩, hl⟩, hv⟩, hr⟩ := h
  have h1 := join_truthy _ hs
  have h2 := join_truthy _ hd
  have h3 : mapping.transform_type.truthy = true := by
    cases htt : mapping.transform_type <;> simp [htt, isNonEmptyString] at ht
    simpa [JSValue.truthy] using ht
  have h4 : mapping.transform_logic.or (JSValue.str "") = mapping.transform_logic := by
    cases htl : mapping.transform_logic <;> simp [htl, isString] at hl
    rename_i s
    by_cases hs0 : s = "" <;> simp [JSValue.or, JSValue.truthy, strTruthy, hs0]
  have h5 : mapping.default_value.or (JSValue.str "") = mapping.default_value := by
    cases hdv : mapping.default_value <;> simp [hdv, isString] at hv
    rename_i s
    by_cases hs0 : s = "" <;> simp [JSValue.or, JSValue.truthy, strTruthy, hs0]
  have h6 : mapping.required.or (JSValue.bool false) = mapping.required := by
    cases hrq : mapping.required <;> simp [hrq, JSValue.isBoolean] at hr
    rename_i b
    cases b <;> simp [JSValue.or, JSValue.truthy]
  have := transformMapping_of
    (JSValue.obj
        [("source_path", JSValue.str (join mapping.source_path '.')),
         ("destination_path", JSValue.str (join mapping.destination_path '.')),
         ("transform_type", mapping.transform_type),
         ("transform_logic", mapping.transform_logic),
         ("default_value", mapping.default_value),
         ("required", mapping.required)]) index
    (JSValue.str (join mapping.source_path '.'))
    (JSValue.str (join mapping.destination_path '.'))
    mapping.transform_type mapping.transform_logic mapping.default_value mapping.required
    (segmentsValue mapping.source_path) (segmentsValue mapping.destination_path)
    rfl rfl rfl rfl rfl rfl (by simpa [JSValue.truthy] using h1)
    (by simpa [JSValue.truthy] using h2) h3
    (by simp [bulkPath, pathSegments_join _ hs])
    (by simp [bulkPath, pathSegments_join _ hd])
  rw [this, h4, h5, h6]
  rfl

theorem mapFrom_exported (mappings : List StoredMapping) :
    ∀ (index : Nat), (∀ m ∈ mappings, isWellFormedStored m = true) →
      ∀ items, exportData mappings = JSValue.arr items →
        mapFrom index items = .ok (mappings.map storedRule) := by
  induction mappings with
  | nil =>
      intro index _ items hitems
      simp [exportData] at hitems
      subst hitems
      rfl
  | cons m rest ih =>
      intro index hall items hitems
      simp only [exportData, List.map_cons, JSValue.arr.injEq] at hitems
      subst hitems
      have hm := transformMapping_exported m index (hall m (List.mem_cons_self _ _))
      have hrest := ih (index + 1) (fun x hx => hall x (List.mem_cons_of_mem _ hx)) _ rfl
      simp [mapFrom, hm, hrest]

/-- C8: export then import is a round trip.  For stored rules with well-formed
paths (non-empty, segments without dot and not blank), non-empty string
`transform_type`, string `transform_logic` and `default_value` and boolean
`required`, on a platform whose JSON built-ins are faithful on the exported
array: `exportMappingRules` writes the JSON of `exportData` whenever there is a
rule to export, and bulk-importing the written text submits rules equal to the
stored ones on all six fields, in the same order. -/
theorem export_import_round_trip (pf : Platform) (reply : Except JSError JSValue)
    (st : ClientsState)
    (hvalid : ∀ m ∈ st.mappings, isWellFormedStored m = true)
    (hjson : JsonFaithfulOn pf (exportData st.mappings)) :
    (st.mappings ≠ [] →
      exportedText pf st = some (pf.jsonStringify (exportData st.mappings))) ∧
    ∀ text, exportedText pf st = some text →
      ∀ (st2 : ClientsState) (client : Client),
        st2.selectedClient = some client → st2.bulkMappingText = text →
        submittedRules (handleBulkCreateMapping pf reply st2).2
          = [st.mappings.map storedRule] := by
  have hexp : ∀ text, exportedText pf st = some text →
      text = pf.jsonStringify (exportData st.mappings) := by
    intro text h
    unfold exportedText exportMappingRules at h
    by_cases hlen : st.mappings.length = 0
    · simp [hlen] at h
    · simp [hlen] at h
      exact h.symm
  constructor
  · intro hne
    unfold exportedText exportMappingRules
    have hlen : st.mappings.length ≠ 0 := by
      intro h0
      exact hne (List.length_eq_zero.mp h0)
    simp [hlen]
  · intro text htext st2 client hc hb
    have ht := hexp text htext
    subst ht
    obtain ⟨hnb, hparse⟩ := hjson
    have hrules : transformedMappings (st.mappings.map fun mapping =>
        JSValue.obj
          [("source_path", JSValue.str (join mapping.source_path '.')),
           ("destination_path", JSValue.str (join mapping.destination_path '.')),
           ("transform_type", mapping.transform_type),
           ("transform_logic", mapping.transform_logic),
           ("default_value", mapping.default_value),
           ("required", mapping.required)]) = .ok (st.mappings.map storedRule) :=
      mapFrom_exported st.mappings 0 hvalid _ rfl
    exact handleBulk_submits pf reply st2 client _ _ hc (by rw [hb]; exact hnb)
      (by rw [hb]; exact hparse) hrules

set_option maxRecDepth 100000 in
theorem export_import_round_trip_witness :
    submittedRules (handleBulkCreateMapping
        (platformAt sampleExportText (exportData sampleMappings)) (.ok JSValue.null)
        (bulkState sampleExportText)).2
      = [sampleMappings.map storedRule] :=
  (export_import_round_trip (platformAt sampleExportText (exportData sampleMappings))
      (.ok JSValue.null) sampleMappingsState
      (by
        intro m hm
        simp only [sampleMappingsState, sampleMappings, List.mem_singleton] at hm
        subst hm
        rfl)
      ⟨rfl, rfl⟩).2
    sampleExportText rfl (bulkState sampleExportText) sampleClient rfl rfl

/-! ## The rule form -/

theorem formStep_transform_type (newMapping : NewMapping) (ev : FormEvent)
    (h : newMapping.transform_type ∈ specTransformTypes) (hev : ev.possible = true) :
    (formStep newMapping ev).transform_type ∈ specTransformTypes := by
  cases ev with
  | transformTypeSelected value =>
      simp only [FormEvent.possible, decide_eq_true_eq] at hev
      simp only [formStep]
      revert hev
      simp [offeredTransformTypes, transformTypeItems, specTransformTypes]
  | savedAndReset =>
      simp [formStep, initialNewMapping, specTransformTypes]
  | _ => simpa [formStep] using h

theorem foldl_formStep_transform_type (events : List FormEvent) :
    ∀ newMapping : NewMapping, newMapping.transform_type ∈ specTransformTypes →
      (∀ ev ∈ events, ev.possible = true) →
      (events.foldl formStep newMapping).transform_type ∈ specTransformTypes := by
  induction events with
  | nil =>
      intro newMapping h _
      exact h
  | cons ev rest ih =>
      intro newMapping h hall
      simp only [List.foldl_cons]
      apply ih
      · exact formStep_transform_type newMapping ev h (hall ev (List.mem_cons_self _ _))
      · intro e he
        exact hall e (List.mem_cons_of_mem _ he)

/-- C9: the transform types the rule form offers are exactly the nine of the
enumeration, each once; and in every state the form reaches from its initial
state (by edits, selections and the reset after a successful save, also the
one `handleCreateMapping` performs) `newMapping.transform_type` is one of
them. -/
theorem form_transform_type_in_enumeration (events : List FormEvent)
    (hposs : ∀ ev ∈ events, ev.possible = true) :
    (∀ t, t ∈ offeredTransformTypes ↔ t ∈ specTransformTypes) ∧
    offeredTransformTypes.length = 9 ∧ offeredTransformTypes.Nodup ∧
    (formRun events).transform_type ∈ specTransformTypes ∧
    ∀ (reply : Except JSError JSValue) (st : ClientsState),
      st.newMapping = formRun events →
      (handleCreateMapping reply st).1.newMapping.transform_type ∈ specTransformTypes := by
  have hrun : (formRun events).transform_type ∈ specTransformTypes :=
    foldl_formStep_transform_type events initialNewMapping
      (by simp [initialNewMapping, specTransformTypes]) hposs
  refine ⟨?_, by decide, by decide, hrun, ?_⟩
  · intro t
    simp [offeredTransformTypes, transformTypeItems, specTransformTypes]
  · intro reply st hst
    unfold handleCreateMapping
    cases hsel : st.selectedClient with
    | none => simpa [hst] using hrun
    | some client =>
        cases reply with
        | ok r => simp [initialNewMapping, specTransformTypes]
        | error e => simpa [hst] using hrun

theorem form_transform_type_in_enumeration_witness :
    (formRun [.sourcePathChanged "user.name", .transformTypeSelected "mapGender",
      .requiredChanged true]).transform_type ∈ specTransformTypes :=
  (form_transform_type_in_enumeration
    [.sourcePathChanged "user.name", .transformTypeSelected "mapGender",
      .requiredChanged true] (by decide)).2.2.2.1

/-! ## The transformation page -/

/-- The failure path after a `TypeError`: the output is cleared and the generic
failure toast is shown. -/
theorem transformCatch_typeError (pf : Platform) (st : TransformState) (done : List Effect)
    (message : String) :
    transformCatch pf st done (.typeError message) =
      ({ st with outputData := "", loading := false },
       done ++ [.consoleError "Transformation error:" (.typeError message),
                .toastError "Transformation failed"]) := by
  simp [transformCatch, JSError.name, JSError.responseDataError, JSValue.truthy]

/-- C10, evaluated where the code breaks it: after valid input and a successful
backend call that returns `null`, `handleTransform` shows the output and then
fails reading `result.warnings`; it ends in the failure path with `outputData`
empty, not `JSON.stringify(result, null, 2)`.  When the toast object has no
`warning` method, every result that carries a truthy
`warnings.missingRequiredFields` ends the same way. -/
theorem transform_success_cleared (pf : Platform) (st : TransformState) (input : JSValue)
    (hc : strTruthy st.selectedClient = true)
    (hi : strTruthy (trim st.inputData) = true)
    (hp : pf.jsonParse st.inputData = some input) :
    handleTransform pf (.ok JSValue.null) st =
      ({ st with outputData := "", loading := false },
       [.transformRequest st.selectedClient input,
        .consoleError "Transformation error:"
          (.typeError "Cannot read properties of null (reading 'warnings')"),
        .toastError "Transformation failed"]) ∧
    (pf.jsonStringify JSValue.null ≠ "" →
      (handleTransform pf (.ok JSValue.null) st).1.outputData
        ≠ pf.jsonStringify JSValue.null) ∧
    (pf.toastHasWarning = false →
      ∀ (result warnings missing : JSValue),
        getProp result "warnings" = .ok warnings → warnings.truthy = true →
        getProp warnings "missingRequiredFields" = .ok missing → missing.truthy = true →
        handleTransform pf (.ok result) st =
          ({ st with outputData := "", loading := false },
           [.transformRequest st.selectedClient input,
            .consoleError "Transformation error:"
              (.typeError "toast.warning is not a function"),
            .toastError "Transformation failed"])) := by
  refine ⟨?_, ?_, ?_⟩
  · simp only [handleTransform, hc, hi, hp, warningsCondition, getProp, if_true]
    exact transformCatch_typeError pf _ _ _
  · intro hne
    simp only [handleTransform, hc, hi, hp, warningsCondition, getProp, if_true]
    rw [transformCatch_typeError]
    exact fun h => hne h.symm
  · intro hw result warnings missing h1 h2 h3 h4
    simp only [handleTransform, hc, hi, hp, warningsCondition, h1, h2, h3, h4, hw, if_true]
    exact transformCatch_typeError pf _ _ _

theorem transform_success_cleared_witness :
    (handleTransform sampleTransformPlatform (.ok JSValue.null) sampleTransformState).1.outputData
        ≠ "null" ∧
    (handleTransform sampleTransformPlatform (.ok sampleWarningResult)
        sampleTransformState).1.outputData = "" :=
  ⟨(transform_success_cleared sampleTransformPlatform sampleTransformState sampleInput
      (by decide) (by decide) rfl).2.1 (by decide),
   congrArg (fun r => r.1.outputData)
     ((transform_success_cleared sampleTransformPlatform sampleTransformState sampleInput
        (by decide) (by decide) rfl).2.2 rfl sampleWarningResult
        (JSValue.obj [("missingRequiredFields", JSValue.arr [JSValue.str "a.0.name"])])
        (JSValue.arr [JSValue.str "a.0.name"]) rfl rfl rfl rfl)⟩

/-! ## Claims on warnings, defaults and failed imports -/

/-- C11, evaluated where the code breaks it: for a result whose
`warnings.missingRequiredFields` is the empty list, `handleTransform` does not
show `Transformation completed successfully`.  The condition tests the list for
truthiness, and an empty array is truthy: with a toast object that has
`warning` the handler shows the warning with count `0`; with one that has not,
the call throws and the handler ends in the failure path. -/
theorem transform_empty_warning_list (pf : Platform) (st : TransformState) (input : JSValue)
    (hc : strTruthy st.selectedClient = true)
    (hi : strTruthy (trim st.inputData) = true)
    (hp : pf.jsonParse st.inputData = some input) :
    (pf.toastHasWarning = true →
      handleTransform pf (.ok emptyWarningResult) st =
        ({ st with outputData := pf.jsonStringify emptyWarningResult, loading := false },
         [.transformRequest st.selectedClient input,
          .toastWarning ("Transformation completed with warnings: "
            ++ templateText pf (JSValue.num 0) ++ " missing required fields")])) ∧
    (pf.toastHasWarning = false →
      handleTransform pf (.ok emptyWarningResult) st =
        ({ st with outputData := "", loading := false },
         [.transformRequest st.selectedClient input,
          .consoleError "Transformation error:"
            (.typeError "toast.warning is not a function"),
          .toastError "Transformation failed"])) := by
  have hcond : warningsCondition emptyWarningResult = .ok (JSValue.arr []) := rfl
  have hmsg : warningMessage pf (JSValue.arr []) =
      .ok ("Transformation completed with warnings: "
        ++ templateText pf (JSValue.num 0) ++ " missing required fields") := by
    simp [warningMessage, getProp]
  constructor
  · intro hw
    simp only [handleTransform, hc, hi, hp, hcond, hw, hmsg, JSValue.truthy, if_true]
  · intro hw
    simp only [handleTransform, hc, hi, hp, hcond, hw, JSValue.truthy, if_true]
    exact transformCatch_typeError pf _ _ _

theorem transform_empty_warning_list_witness :
    (handleTransform sampleWarningPlatform (.ok emptyWarningResult) sampleTransformState).2 =
      [.transformRequest "1" sampleInput,
       .toastWarning "Transformation completed with warnings: 0 missing required fields"] ∧
    (handleTransform sampleTransformPlatform (.ok emptyWarningResult) sampleTransformState).2 =
      [.transformRequest "1" sampleInput,
       .consoleError "Transformation error:" (.typeError "toast.warning is not a function"),
       .toastError "Transformation failed"] :=
  ⟨congrArg Prod.snd
      ((transform_empty_warning_list sampleWarningPlatform sampleTransformState sampleInput
        (by decide) (by decide) rfl).1 rfl),
   congrArg Prod.snd
      ((transform_empty_warning_list sampleTransformPlatform sampleTransformState sampleInput
        (by decide) (by decide) rfl).2 rfl)⟩

/-- C19, as stated, fails: a rule whose `default_value` is the number `0` is
accepted and is submitted with `default_value` equal to the empty string. -/
theorem bulk_default_value_dropped :
    getProp zeroDefaultRule "default_value" = .ok (JSValue.num 0) ∧
    ∃ rule, transformedMappings [zeroDefaultRule] = .ok [rule] ∧
      rule.default_value = JSValue.str "" ∧ rule.default_value ≠ JSValue.num 0 := by
  refine ⟨rfl, ?_⟩
  have h : transformMapping zeroDefaultRule 0 = .ok zeroDefaultSubmitted := by
    have := transformMapping_of zeroDefaultRule 0 (JSValue.str "a") (JSValue.str "b")
      (JSValue.str "copy") JSValue.undefined (JSValue.num 0) JSValue.undefined
      (JSValue.arr [JSValue.str "a"]) (JSValue.arr [JSValue.str "b"])
      rfl rfl rfl rfl rfl rfl (by decide) (by decide) (by decide) rfl rfl
    simpa [JSValue.or, JSValue.truthy, zeroDefaultSubmitted] using this
  refine ⟨zeroDefaultSubmitted, ?_, rfl, ?_⟩
  · simp [transformedMappings, mapFrom, h]
  · simp [zeroDefaultSubmitted]

/-- C19, amended: when bulk import is accepted, every submitted rule carries
`default_value || ''` of its input rule: the input's `default_value` unchanged
when it is truthy or any string, and the empty string when the input has none
or a falsy one (`null`, `false`, `0`). -/
theorem bulk_default_value_or_empty (pf : Platform) (reply : Except JSError JSValue)
    (st : ClientsState) (client : Client) (bulk : List JSValue) (rules : List MappingRule)
    (hc : st.selectedClient = some client)
    (ht : strTruthy (trim st.bulkMappingText) = true)
    (hp : pf.jsonParse st.bulkMappingText = some (JSValue.arr bulk))
    (hr : transformedMappings bulk = .ok rules) :
    submittedRules (handleBulkCreateMapping pf reply st).2 = [rules] ∧
    ∀ (i : Nat) (mapping : JSValue), bulk[i]? = some mapping →
      ∃ (rule : MappingRule) (dv : JSValue), rules[i]? = some rule ∧
        getProp mapping "default_value" = .ok dv ∧
        rule.default_value = dv.or (JSValue.str "") ∧
        (dv.truthy = true → rule.default_value = dv) ∧
        (∀ s, dv = JSValue.str s → rule.default_value = dv) ∧
        (dv.truthy = false → rule.default_value = JSValue.str "") ∧
        (dv = JSValue.undefined → rule.default_value = JSValue.str "") := by
  refine ⟨handleBulk_submits pf reply st client bulk rules hc ht hp hr, ?_⟩
  intro i mapping hi
  obtain ⟨rule, hrule, htm⟩ := (mapFrom_ok bulk 0 rules hr).2 i mapping hi
  obtain ⟨_, _, _, _, dv, _, _, _, _, _, hdv, _, _, _, _, _, _, _, _, hdef, _⟩ :=
    transformMapping_inv mapping (0 + i) rule htm
  refine ⟨rule, dv, hrule, hdv, hdef, ?_, ?_, ?_, ?_⟩
  · intro h
    rw [hdef]
    simp [JSValue.or, h]
  · intro s h
    rw [hdef, h]
    by_cases hs : s = "" <;> simp [JSValue.or, JSValue.truthy, strTruthy, hs]
  · intro h
    rw [hdef]
    simp [JSValue.or, h]
  · intro h
    rw [hdef, h]
    rfl

theorem bulk_default_value_or_empty_witness :
    ∃ (rule : MappingRule) (dv : JSValue), [splitPathSubmitted][0]? = some rule ∧
      getProp splitPathRule "default_value" = .ok dv ∧
      rule.default_value = dv.or (JSValue.str "") ∧
      (dv.truthy = true → rule.default_value = dv) ∧
      (∀ s, dv = JSValue.str s → rule.default_value = dv) ∧
      (dv.truthy = false → rule.default_value = JSValue.str "") ∧
      (dv = JSValue.undefined → rule.default_value = JSValue.str "") :=
  (bulk_default_value_or_empty (platformAt splitPathText (JSValue.arr [splitPathRule]))
      (.ok JSValue.null) (bulkState splitPathText) sampleClient [splitPathRule] _
      rfl (by decide) rfl rfl).2 0 splitPathRule rfl

/-- A rule with a missing required field makes the validation throw, whatever
the other elements of the array are. -/
theorem transformedMappings_error_of_missing (bulk : List JSValue)
    (h : ∃ m ∈ bulk, ∃ f ∈ requiredFields, fieldMissing m f = true) :
    ∃ e, transformedMappings bulk = .error e := by
  obtain ⟨m, hm, f, hf, hmiss⟩ := h
  cases hres : transformedMappings bulk with
  | error e => exact ⟨e, rfl⟩
  | ok rules =>
      exfalso
      obtain ⟨i, hi⟩ := List.getElem?_of_mem hm
      obtain ⟨rule, _, htm⟩ := (mapFrom_ok bulk 0 rules hres).2 i m hi
      obtain ⟨sp, dp, tt, _, _, _, hsp, hdp, htt, _, _, _, h1, h2, h3, _⟩ :=
        transformMapping_inv m (0 + i) rule htm
      simp only [requiredFields, List.mem_cons, List.mem_singleton, List.not_mem_nil,
        or_false] at hf
      rcases hf with rfl | rfl | rfl
      · simp [fieldMissing, hsp, h1] at hmiss
      · simp [fieldMissing, hdp, h2] at hmiss
      · simp [fieldMissing, htt, h3] at hmiss

/-- C20: bulk import is all-or-nothing.  When the text is not valid JSON, or
parses to something that is not an array, or some rule of the array lacks a
required field, `handleBulkCreateMapping` never calls `mappingAPI.create`, and
`bulkMappingText` and `showBulkMappingForm` keep their values. -/
theorem bulk_all_or_nothing (pf : Platform) (reply : Except JSError JSValue)
    (st : ClientsState)
    (hfail : pf.jsonParse st.bulkMappingText = none ∨
      (∃ v, pf.jsonParse st.bulkMappingText = some v ∧ v.isArray = false) ∨
      (∃ bulk, pf.jsonParse st.bulkMappingText = some (JSValue.arr bulk) ∧
        ∃ m ∈ bulk, ∃ f ∈ requiredFields, fieldMissing m f = true)) :
    (∀ clientId rules,
      Effect.createMappings clientId rules ∉ (handleBulkCreateMapping pf reply st).2) ∧
    submittedRules (handleBulkCreateMapping pf reply st).2 = [] ∧
    (handleBulkCreateMapping pf reply st).1.bulkMappingText = st.bulkMappingText ∧
    (handleBulkCreateMapping pf reply st).1.showBulkMappingForm = st.showBulkMappingForm := by
  have hshape : handleBulkCreateMapping pf reply st = (st, []) ∨
      ∃ e, handleBulkCreateMapping pf reply st = bulkCatch st [] e := by
    unfold handleBulkCreateMapping
    cases hsel : st.selectedClient with
    | none => exact Or.inl rfl
    | some client =>
        by_cases ht : strTruthy (trim st.bulkMappingText) = true
        · right
          simp only [ht, if_true]
          rcases hfail with hnone | ⟨v, hv, harr⟩ | ⟨bulk, hb, hmiss⟩
          · rw [hnone]
            exact ⟨_, rfl⟩
          · rw [hv]
            cases v <;> first | exact ⟨_, rfl⟩ | simp [JSValue.isArray] at harr
          · rw [hb]
            obtain ⟨e, he⟩ := transformedMappings_error_of_missing bulk hmiss
            simp only [he]
            exact ⟨_, rfl⟩
        · left
          simp [ht]
  rcases hshape with h | ⟨e, h⟩
  · rw [h]
    simp [submittedRules]
  · rw [h]
    simp [bulkCatch, submittedRules]

theorem bulk_all_or_nothing_witness :
    submittedRules (handleBulkCreateMapping
        (platformAt "[\x7b\"source_path\": \"a.b\"\x7d]" (JSValue.arr [incompleteRule]))
        (.ok JSValue.null) (bulkState "[\x7b\"source_path\": \"a.b\"\x7d]")).2 = [] :=
  (bulk_all_or_nothing
    (platformAt "[\x7b\"source_path\": \"a.b\"\x7d]" (JSValue.arr [incompleteRule]))
    (.ok JSValue.null) (bulkState "[\x7b\"source_path\": \"a.b\"\x7d]")
    (Or.inr (Or.inr ⟨[incompleteRule], rfl, incompleteRule, by simp,
      "destination_path", by simp [requiredFields], rfl⟩))).2.1

/-! ## Request interceptor -/

theorem getHeader_setHeader_same (name value : String) (headers : List (String × String)) :
    getHeader name (setHeader name value headers) = some value := by
  induction headers with
  | nil => simp [setHeader, getHeader]
  | cons kv rest ih =>
      obtain ⟨k, v⟩ := kv
      by_cases hk : k = name
      · simp [setHeader, getHeader, hk]
      · simp [setHeader, getHeader, hk, ih]

theorem getHeader_setHeader_other (name other value : String)
    (headers : List (String × String)) (h : other ≠ name) :
    getHeader other (setHeader name value headers) = getHeader other headers := by
  induction headers with
  | nil =>
      have : name ≠ other := fun e => h e.symm
      simp [setHeader, getHeader, this]
  | cons kv rest ih =>
      obtain ⟨k, v⟩ := kv
      by_cases hk : k = name
      · subst hk
        have : k ≠ other := fun e => h e.symm
        simp [setHeader, getHeader, this]
      · by_cases hko : k = other
        · subst hko
          simp [setHeader, getHeader, h]
        · simp [setHeader, getHeader, hk, hko, ih]

/-- C12: the request interceptor adds the auth token.  With a non-empty token
stored, the returned config has header `Authorization` equal to `Bearer `
followed by the token, and every other header and every other field is
unchanged; with no token or an empty one stored the config is returned
unchanged; so for every request the repository builds, none of which carries an
`Authorization` header of its own, the returned config has `Bearer <token>` if
and only if a non-empty token is stored. -/
theorem interceptor_adds_token (token : Option String) (config : RequestConfig) :
    (∀ t, token = some t → t ≠ "" →
      getHeader "Authorization" (requestInterceptor token config).headers
        = some ("Bearer " ++ t) ∧
      (∀ name, name ≠ "Authorization" →
        getHeader name (requestInterceptor token config).headers
          = getHeader name config.headers) ∧
      (requestInterceptor token config).others = config.others) ∧
    (token = none ∨ token = some "" → requestInterceptor token config = config) ∧
    (getHeader "Authorization" config.headers = none →
      ((∃ t, token = some t ∧
          getHeader "Authorization" (requestInterceptor token config).headers
            = some ("Bearer " ++ t)) ↔
        (∃ t, token = some t ∧ t ≠ ""))) := by
  have hset : ∀ t, t ≠ "" → requestInterceptor (some t) config =
      { config with headers := setHeader "Authorization" ("Bearer " ++ t) config.headers } := by
    intro t ht
    simp [requestInterceptor, strTruthy, ht]
  refine ⟨?_, ?_, ?_⟩
  · intro t htok hne
    subst htok
    rw [hset t hne]
    exact ⟨getHeader_setHeader_same _ _ _,
      fun name hname => getHeader_setHeader_other _ _ _ _ hname, rfl⟩
  · rintro (h | h) <;> subst h <;> simp [requestInterceptor, strTruthy]
  · intro hnone
    constructor
    · rintro ⟨t, htok, hhead⟩
      refine ⟨t, htok, ?_⟩
      intro hempty
      subst htok
      subst hempty
      simp [requestInterceptor, strTruthy, hnone] at hhead
    · rintro ⟨t, htok, hne⟩
      subst htok
      refine ⟨t, rfl, ?_⟩
      rw [hset t hne]
      exact getHeader_setHeader_same _ _ _

theorem interceptor_adds_token_witness :
    getHeader "Authorization" (requestInterceptor (some "abc") sampleConfig).headers
      = some ("Bearer " ++ "abc") ∧
    ((∃ t, (some "abc" : Option String) = some t ∧
        getHeader "Authorization" (requestInterceptor (some "abc") sampleConfig).headers
          = some ("Bearer " ++ t)) ↔
      (∃ t, (some "abc" : Option String) = some t ∧ t ≠ "")) :=
  ⟨((interceptor_adds_token (some "abc") sampleConfig).1 "abc" rfl (by decide)).1,
   (interceptor_adds_token (some "abc") sampleConfig).2.2 rfl⟩

/-! ## Function reference -/

/-- C13: the function reference of the help page lists exactly the built-in
functions of the expression language, each once, with the arity the
specification fixes. -/
theorem help_functions_match_spec :
    helpFunctions.map (fun f => (signatureName f.name, signatureArity f.name))
      = specBuiltinFunctions ∧
    (helpFunctions.map (fun f => signatureName f.name)).Nodup ∧
    helpFunctions.length = 9 := by
  refine ⟨by decide, by decide, rfl⟩

/-! ## The mapping engine: path accessor -/

namespace Engine

theorem lookupField_setField_same (key : String) (v : Value) (fields : List (String × Value)) :
    lookupField key (setField key v fields) = some v := by
  induction fields with
  | nil => simp [setField, lookupField]
  | cons kv rest ih =>
      obtain ⟨k, w⟩ := kv
      by_cases hk : k = key
      · simp [setField, lookupField, hk]
      · simp [setField, lookupField, hk, ih]

theorem lookupField_setField_other (key other : String) (v : Value)
    (fields : List (String × Value)) (h : other ≠ key) :
    lookupField other (setField key v fields) = lookupField other fields := by
  induction fields with
  | nil =>
      have : key ≠ other := fun e => h e.symm
      simp [setField, lookupField, this]
  | cons kv rest ih =>
      obtain ⟨k, w⟩ := kv
      by_cases hk : k = key
      · subst hk
        have : k ≠ other := fun e => h e.symm
        simp [setField, lookupField, this]
      · by_cases hko : k = other
        · subst hko
          simp [setField, lookupField, h]
        · simp [setField, lookupField, hk, hko, ih]

/-- Reading back what `setAt` wrote: whenever a write succeeds, `get` finds the
written value at the same path. -/
theorem get_setAt (path : List String) :
    ∀ (node : Option Value) (v d : Value), setAt node path v = .ok d →
      get d path = .ok (some v) := by
  induction path with
  | nil =>
      intro node v d h
      cases node <;> simp [setAt] at h <;> subst h <;> simp [get]
  | cons seg rest ih =>
      intro node v d h
      cases node with
      | none =>
          simp only [setAt] at h
          cases hc : setAt none rest v with
          | error e => simp [hc] at h
          | ok child =>
              simp only [hc, Except.ok.injEq] at h
              subst h
              simp [get, lookupField, ih none v child hc]
      | some doc =>
          cases doc with
          | map fields =>
              simp only [setAt] at h
              cases hc : setAt (lookupField seg fields) rest v with
              | error e => simp [hc] at h
              | ok child =>
                  simp only [hc, Except.ok.injEq] at h
                  subst h
                  simp [get, lookupField_setField_same, ih _ v child hc]
          | seq items =>
              simp only [setAt] at h
              cases hp : parseIndex seg with
              | none => simp [hp] at h
              | some i =>
                  simp only [hp] at h
                  by_cases hi : i < items.length
                  · simp only [hi, if_true] at h
                    cases hc : setAt items[i]? rest v with
                    | error e => simp [hc] at h
                    | ok child =>
                        simp only [hc, Except.ok.injEq] at h
                        subst h
                        simp [get, hp, hi, ih _ v child hc]
                  · simp only [hi, if_false] at h
                    cases hc : setAt none rest v with
                    | error e => simp [hc] at h
                    | ok child =>
                        simp only [hc, Except.ok.injEq] at h
                        subst h
                        have hlen : (items ++ List.replicate (i - items.length) Value.null).length
                            = i := by
                          simp
                          omega
                        have hget : (items ++ List.replicate (i - items.length) Value.null
                            ++ [child])[i]? = some child := by
                          rw [List.getElem?_append_right (by omega)]
                          simp [hlen]
                        simp only [get, hp, hget]
                        exact ih none v child hc
          | null => simp [setAt] at h
          | bool b => simp [setAt] at h
          | num x => simp [setAt] at h
          | str s => simp [setAt] at h

/-- A write along a path that meets only mappings or absent nodes succeeds. -/
theorem setAt_of_traversesMappings (path : List String) :
    ∀ (node : Option Value) (v : Value), traversesMappings node path = true →
      ∃ d, setAt node path v = .ok d := by
  induction path with
  | nil =>
      intro node v _
      cases node <;> exact ⟨v, by simp [setAt]⟩
  | cons seg rest ih =>
      intro node v h
      cases node with
      | none =>
          obtain ⟨child, hc⟩ := ih none v (by cases rest <;> simp [traversesMappings])
          exact ⟨.map [(seg, child)], by simp [setAt, hc]⟩
      | some doc =>
          cases doc with
          | map fields =>
              simp only [traversesMappings] at h
              obtain ⟨child, hc⟩ := ih (lookupField seg fields) v h
              exact ⟨.map (setField seg child fields), by simp [setAt, hc]⟩
          | null => simp [traversesMappings] at h
          | bool b => simp [traversesMappings] at h
          | num x => simp [traversesMappings] at h
          | str s => simp [traversesMappings] at h
          | seq items => simp [traversesMappings] at h

/-- C16, as stated, fails: in the document with `a` bound to the number 5 the
path `a.b` has only mapping-key segments, yet `set` meets a scalar and raises
`PathError`, so nothing can be read back. -/
theorem set_through_scalar_fails :
    (["a", "b"].all isKeySegment) = true ∧
    set (.map [("a", .num 5)]) ["a", "b"] (.str "v") = .error .pathError ∧
    ¬ (∀ (doc : Value) (path : List String) (v : Value), path ≠ [] →
        path.all isKeySegment = true →
        ∃ d, set doc path v = .ok d ∧ get d path = .ok (some v)) := by
  refine ⟨by decide, rfl, ?_⟩
  intro h
  obtain ⟨d, hd, _⟩ := h (.map [("a", .num 5)]) ["a", "b"] (.str "v") (by simp) (by decide)
  have : set (.map [("a", .num 5)]) ["a", "b"] (.str "v") = .error .pathError := rfl
  rw [this] at hd
  cases hd

/-- C16, amended: for every document, every path (non-empty or not) and every
value such that each node the path meets in the document is a mapping or is
absent, `set` succeeds and `get` on its result returns the value with
`found = true`. -/
theorem get_set_round_trip (doc : Value) (path : List String) (v : Value)
    (h : traversesMappings (some doc) path = true) :
    ∃ d, set doc path v = .ok d ∧ get d path = .ok (some v) := by
  obtain ⟨d, hd⟩ := setAt_of_traversesMappings path (some doc) v h
  exact ⟨d, hd, get_setAt path (some doc) v d hd⟩

theorem get_set_round_trip_witness :
    ∃ d, set (.map [("a", .map [("b", .num 1)])]) ["a", "c", "0"] (.str "v") = .ok d ∧
      get d ["a", "c", "0"] = .ok (some (.str "v")) :=
  get_set_round_trip (.map [("a", .map [("b", .num 1)])]) ["a", "c", "0"] (.str "v") rfl

end Engine

/-! ## The mapping engine: pipeline -/

namespace Engine

theorem runFrom_append (env : EngineEnv) (input : Value) (xs ys : List Rule) :
    ∀ (index : Nat) (st : RunState),
      runFrom env input index (xs ++ ys) st
        = runFrom env input (index + xs.length) ys (runFrom env input index xs st) := by
  induction xs with
  | nil =>
      intro index st
      simp [runFrom]
  | cons x rest ih =>
      intro index st
      show runFrom env input (index + 1) (rest ++ ys) (processRule env input index x st)
        = runFrom env input (index + (rest.length + 1)) ys
            (runFrom env input (index + 1) rest (processRule env input index x st))
      rw [ih]
      congr 1
      omega

theorem run_eq (env : EngineEnv) (rules : List Rule) (input : Value) :
    run env rules input = runFrom env input 0 rules initialRunState := rfl

/-- What a required rule without default does when its source is absent. -/
theorem processRule_missing_required (env : EngineEnv) (input : Value) (index : Nat)
    (rule : Rule) (st : RunState)
    (hreq : rule.required = true) (hdef : rule.default_value = none)
    (habs : get input rule.source_path = .ok none) :
    processRule env input index rule st =
      { output := st.output
        warnings := st.warnings ++
          [{ rule_index := index, source_path := rule.source_path,
             reason := .missing_required }] } := by
  simp [processRule, produce, habs, hdef, hreq, warn]

/-- C17: a rule that is required and has no default, whose source path is
absent from the input, leaves the output document as it is and adds exactly one
warning `{rule_index, source_path, missing_required}`, at its own step and
within any ruleset; and the scenario of the specification gives the output
`{}` with the one warning for rule 0. -/
theorem missing_required_warns (env : EngineEnv) (input : Value) (rule : Rule)
    (hreq : rule.required = true) (hdef : rule.default_value = none)
    (habs : get input rule.source_path = .ok none) :
    (∀ (index : Nat) (st : RunState),
      processRule env input index rule st =
        { output := st.output
          warnings := st.warnings ++
            [{ rule_index := index, source_path := rule.source_path,
               reason := .missing_required }] }) ∧
    (∀ (pre post : List Rule),
      run env (pre ++ rule :: post) input =
        runFrom env input (pre.length + 1) post
          { output := (run env pre input).output
            warnings := (run env pre input).warnings ++
              [{ rule_index := pre.length, source_path := rule.source_path,
                 reason := .missing_required }] }) ∧
    run env [scenarioRule] (.map [("a", .seq [])]) =
      { output := .map []
        warnings := [{ rule_index := 0, source_path := ["a", "0", "name"],
                       reason := .missing_required }] } := by
  refine ⟨fun index st => processRule_missing_required env input index rule st hreq hdef habs,
    ?_, rfl⟩
  intro pre post
  rw [run_eq, runFrom_append]
  simp only [runFrom, Nat.zero_add]
  rw [processRule_missing_required env input _ rule _ hreq hdef habs]
  rfl

theorem missing_required_warns_witness :
    run sampleEnv [scenarioRule] (.map [("a", .seq [])]) =
      { output := .map []
        warnings := [{ rule_index := 0, source_path := ["a", "0", "name"],
                       reason := .missing_required }] } :=
  (missing_required_warns sampleEnv (.map [("a", .seq [])]) scenarioRule rfl rfl rfl).2.2

/-- A write at a path keeps every value found at a path that diverges from
it. -/
theorem setAt_keeps (q : List String) :
    ∀ (p : List String) (node d w v : Value), diverges q p = true →
      setAt (some node) q w = .ok d → get node p = .ok (some v) →
      get d p = .ok (some v) := by
  induction q with
  | nil =>
      intro p node d w v hdiv
      simp [diverges] at hdiv
  | cons s qs ih =>
      intro p node d w v hdiv hset hget
      cases p with
      | nil => simp [diverges] at hdiv
      | cons t ps =>
          cases node with
          | map fields =>
              simp only [setAt] at hset
              cases hc : setAt (lookupField s fields) qs w with
              | error e => simp [hc] at hset
              | ok child =>
                  simp only [hc, Except.ok.injEq] at hset
                  subst hset
                  simp only [get] at hget ⊢
                  cases hl : lookupField t fields with
                  | none => simp [hl] at hget
                  | some c =>
                      simp only [hl] at hget
                      by_cases hst : s = t
                      · subst hst
                        simp only [diverges, if_true] at hdiv
                        rw [lookupField_setField_same]
                        rw [hl] at hc
                        exact ih ps c child w v hdiv hc hget
                      · rw [lookupField_setField_other s t child fields (fun e => hst e.symm),
                          hl]
                        exact hget
          | seq items =>
              simp only [setAt] at hset
              cases hp : parseIndex s with
              | none => simp [hp] at hset
              | some i =>
                  simp only [hp] at hset
                  simp only [get] at hget
                  cases hpt : parseIndex t with
                  | none => simp [hpt] at hget
                  | some j =>
                      simp only [hpt] at hget
                      cases hj : items[j]? with
                      | none => simp [hj] at hget
                      | some c =>
                          simp only [hj] at hget
                          have hjlt : j < items.length := by
                            by_contra hcon
                            have := List.getElem?_eq_none (Nat.le_of_not_lt hcon)
                            rw [this] at hj
                            cases hj
                          by_cases hst : s = t
                          · subst hst
                            simp only [diverges, if_true] at hdiv
                            rw [hp] at hpt
                            cases hpt
                            simp only [hjlt, if_true, hj] at hset
                            cases hc : setAt (some c) qs w with
                            | error e => simp [hc] at hset
                            | ok child =>
                                simp only [hc, Except.ok.injEq] at hset
                                subst hset
                                simp only [get, hp, List.getElem?_set_self hjlt]
                                exact ih ps c child w v hdiv hc hget
                          · simp only [diverges, hst, if_false, decide_eq_true_eq, hp, hpt] at hdiv
                            have hij : i ≠ j := by
                              rcases hdiv with h | h
                              · cases h
                              · intro e
                                exact h (by rw [e])
                            by_cases hi : i < items.length
                            · simp only [hi, if_true] at hset
                              cases hc : setAt items[i]? qs w with
                              | error e => simp [hc] at hset
                              | ok child =>
                                  simp only [hc, Except.ok.injEq] at hset
                                  subst hset
                                  simp only [get, hpt, List.getElem?_set_ne hij, hj]
                                  exact hget
                            · simp only [hi, if_false] at hset
                              cases hc : setAt none qs w with
                              | error e => simp [hc] at hset
                              | ok child =>
                                  simp only [hc, Except.ok.injEq] at hset
                                  subst hset
                                  have hgetj : (items ++ List.replicate (i - items.length)
                                      Value.null ++ [child])[j]? = some c := by
                                    rw [List.append_assoc, List.getElem?_append_left hjlt, hj]
                                  simp only [get, hpt, hgetj]
                                  exact hget
          | null => simp [setAt] at hset
          | bool b => simp [setAt] at hset
          | num x => simp [setAt] at hset
          | str x => simp [setAt] at hset

/-- A rule that produces no value, or writes at a path diverging from `p`,
keeps the value found at `p`. -/
theorem processRule_keeps (env : EngineEnv) (input : Value) (index : Nat) (rule : Rule)
    (st : RunState) (p : List String) (v : Value)
    (h : diverges rule.destination_path p = true ∨
      ∀ w, produce env input rule ≠ .ok (some w))
    (hget : get st.output p = .ok (some v)) :
    get (processRule env input index rule st).output p = .ok (some v) := by
  unfold processRule
  cases hp : produce env input rule with
  | error e => exact hget
  | ok found =>
      cases found with
      | none =>
          by_cases hr : rule.required = true <;> simp [hr, warn, hget]
      | some w =>
          rcases h with hdiv | hno
          · simp only
            cases hs : set st.output rule.destination_path w with
            | error e => exact hget
            | ok out => exact setAt_keeps _ p st.output out w v hdiv hs hget
          · exact absurd hp (hno w)

/-- Rules that produce no value or write at diverging paths keep the value
found at a path. -/
theorem runFrom_keeps (env : EngineEnv) (input : Value) (p : List String) (v : Value)
    (post : List Rule)
    (hpost : ∀ r ∈ post, diverges r.destination_path p = true ∨
      ∀ w, produce env input r ≠ .ok (some w)) :
    ∀ (index : Nat) (st : RunState), get st.output p = .ok (some v) →
      get (runFrom env input index post st).output p = .ok (some v) := by
  induction post with
  | nil =>
      intro index st h
      exact h
  | cons r rest ih =>
      intro index st h
      simp only [runFrom]
      exact ih (fun q hq => hpost q (List.mem_cons_of_mem _ hq)) (index + 1) _
        (processRule_keeps env input index r st p v (hpost r (List.mem_cons_self _ _)) h)

/-- The step of a rule that produces a value and whose write succeeds. -/
theorem processRule_writes (env : EngineEnv) (input : Value) (index : Nat) (rule : Rule)
    (st : RunState) (v out : Value)
    (hv : produce env input rule = .ok (some v))
    (hw : set st.output rule.destination_path v = .ok out) :
    processRule env input index rule st = { st with output := out } := by
  simp [processRule, hv, hw]

/-- C18, as stated, fails: the first two of `overwriteRules` write the same
destination `x.y` and both produce a value, a third rule then writes `x`; the
final output is `{x: 3}` and holds no value at `x.y`. -/
theorem later_write_displaces :
    (copyRule ["a"] ["x", "y"]).destination_path = (copyRule ["b"] ["x", "y"]).destination_path ∧
    produce sampleEnv overwriteInput (copyRule ["a"] ["x", "y"]) = .ok (some (.num 1)) ∧
    produce sampleEnv overwriteInput (copyRule ["b"] ["x", "y"]) = .ok (some (.num 2)) ∧
    (run sampleEnv [copyRule ["a"] ["x", "y"], copyRule ["b"] ["x", "y"]] overwriteInput).output
      = .map [("x", .map [("y", .num 2)])] ∧
    (run sampleEnv overwriteRules overwriteInput).output = .map [("x", .num 3)] ∧
    get (run sampleEnv overwriteRules overwriteInput).output ["x", "y"] = .error .pathError :=
  ⟨rfl, rfl, rfl, rfl, rfl, rfl⟩

/-- C18, amended: last rule wins.  When two rules write the same destination
path, that is both produce a value and both writes succeed, and every rule
after the later of the two either produces no value or writes at a path that
diverges from that path, then the earlier rule's value stands at the path
right after its step, and the final output holds there the value written by
the later rule. -/
theorem last_write_wins (env : EngineEnv) (input : Value) (pre mid post : List Rule)
    (ri rj : Rule) (vi vj outi outj : Value)
    (hdest : ri.destination_path = rj.destination_path)
    (hvi : produce env input ri = .ok (some vi))
    (hwi : set (run env pre input).output ri.destination_path vi = .ok outi)
    (hvj : produce env input rj = .ok (some vj))
    (hwj : set (run env (pre ++ ri :: mid) input).output rj.destination_path vj = .ok outj)
    (hpost : ∀ r ∈ post, diverges r.destination_path rj.destination_path = true ∨
      ∀ w, produce env input r ≠ .ok (some w)) :
    get (run env (pre ++ [ri]) input).output rj.destination_path = .ok (some vi) ∧
    get (run env (pre ++ ri :: mid ++ rj :: post) input).output rj.destination_path
      = .ok (some vj) := by
  constructor
  · rw [run_eq, runFrom_append]
    simp only [runFrom]
    rw [← run_eq, processRule_writes env input _ ri _ vi outi hvi hwi]
    rw [← hdest]
    exact get_setAt ri.destination_path _ vi outi hwi
  · have hsplit : pre ++ ri :: mid ++ rj :: post = (pre ++ ri :: mid) ++ rj :: post := by simp
    rw [hsplit, run_eq, runFrom_append]
    simp only [runFrom]
    rw [← run_eq, processRule_writes env input _ rj _ vj outj hvj hwj]
    exact runFrom_keeps env input rj.destination_path vj post hpost _ _
      (get_setAt rj.destination_path _ vj outj hwj)

theorem last_write_wins_witness :
    get (run sampleEnv [copyRule ["a"] ["x", "y"]] overwriteInput).output ["x", "y"]
      = .ok (some (.num 1)) ∧
    get (run sampleEnv conflictRules overwriteInput).output ["x", "y"]
      = .ok (some (.num 2)) :=
  last_write_wins sampleEnv overwriteInput [] [copyRule ["c"] ["w"]]
    [copyRule ["c"] ["x", "z"], copyRule ["nothing"] ["x", "y"]]
    (copyRule ["a"] ["x", "y"]) (copyRule ["b"] ["x", "y"]) (.num 1) (.num 2)
    (.map [("x", .map [("y", .num 1)])])
    (.map [("x", .map [("y", .num 2)]), ("w", .num 3)])
    rfl rfl rfl rfl rfl
    (by
      intro r hr
      simp only [List.mem_cons, List.mem_singleton, List.not_mem_nil, or_false] at hr
      rcases hr with h | h
      · subst h
        exact Or.inl rfl
      · subst h
        right
        intro w hw
        have hnone : produce sampleEnv overwriteInput (copyRule ["nothing"] ["x", "y"])
            = .ok none := rfl
        rw [hnone] at hw
        cases hw)

/-! ## The mapping engine: expressions -/

/-- The syntax tree of the conditional example. -/
theorem parse_conditional :
    parseExpression "value != '' ? toUpper(value) : 'UNKNOWN'" =
      .ok (.ternary (.binary .ne .value (.str "")) (.call "toUpper" [.value])
        (.str "UNKNOWN")) := rfl

/-- The syntax tree of the default-value example. -/
theorem parse_default :
    parseExpression "value || 'Default Value'" =
      .ok (.binary .or .value (.str "Default Value")) := rfl

/-- The `expression` entry of the dispatch table. -/
theorem applyTransform_expression (env : EngineEnv) (rule : Rule) (resolved : Value)
    (e : Expr) (ht : rule.transform_type = "expression")
    (hp : parseExpression rule.transform_logic = .ok e) :
    applyTransform env rule resolved = eval env resolved e := by
  unfold applyTransform
  rw [ht, hp]
  rw [if_neg (by decide), if_neg (by decide), if_neg (by decide), if_neg (by decide),
    if_neg (by decide), if_neg (by decide), if_neg (by decide), if_neg (by decide),
    if_pos rfl]

/-- The value of the conditional example on a string. -/
theorem eval_conditional (env : EngineEnv) (t : String) :
    eval env (.str t) (.ternary (.binary .ne .value (.str "")) (.call "toUpper" [.value])
        (.str "UNKNOWN"))
      = .ok (.str (if t = "" then "UNKNOWN" else ⟨t.data.map Char.toUpper⟩)) := by
  have hcall : callBuiltin env "toUpper" [.str t] = .ok (.str ⟨t.data.map Char.toUpper⟩) := by
    have harity : builtinArity "toUpper" = some 1 := by decide
    have happly : applyBuiltin env "toUpper" [.str t]
        = .ok (.str ⟨t.data.map Char.toUpper⟩) := rfl
    simp [callBuiltin, harity, happly]
  by_cases ht : t = ""
  · subst ht
    simp [eval, applyBinary, eqv, truthy]
  · simp [eval, evalArgs, applyBinary, eqv, truthy, ht, hcall]

/-- C14: an expression rule with `transform_logic`
`value != '' ? toUpper(value) : 'UNKNOWN'` turns the empty string into
`UNKNOWN` and any other string into its upper-cased form; `john` gives
`JOHN`. -/
theorem conditional_expression (env : EngineEnv) (rule : Rule) (s : String) :
    applyTransform env
        { rule with transform_type := "expression"
                    transform_logic := "value != '' ? toUpper(value) : 'UNKNOWN'" } (.str s)
      = .ok (.str (if s = "" then "UNKNOWN" else ⟨s.data.map Char.toUpper⟩)) ∧
    applyTransform env
        { rule with transform_type := "expression"
                    transform_logic := "value != '' ? toUpper(value) : 'UNKNOWN'" } (.str "")
      = .ok (.str "UNKNOWN") ∧
    applyTransform env
        { rule with transform_type := "expression"
                    transform_logic := "value != '' ? toUpper(value) : 'UNKNOWN'" }
        (.str "john")
      = .ok (.str "JOHN") := by
  have key : ∀ t : String, applyTransform env
        { rule with transform_type := "expression"
                    transform_logic := "value != '' ? toUpper(value) : 'UNKNOWN'" } (.str t)
      = .ok (.str (if t = "" then "UNKNOWN" else ⟨t.data.map Char.toUpper⟩)) := by
    intro t
    rw [applyTransform_expression env _ (.str t) _ rfl parse_conditional]
    exact eval_conditional env t
  exact ⟨key s, key "", key "john"⟩

end Engine

namespace Engine

/-- The value of the default-value example. -/
theorem eval_default (env : EngineEnv) (v : Value) :
    eval env v (.binary .or .value (.str "Default Value"))
      = .ok (if truthy v then v else .str "Default Value") := by
  by_cases hv : truthy v = true <;> simp [eval, hv]

/-- C15, as stated, fails: for the source values `0` and `false`, which are
neither empty nor null, `value || 'Default Value'` yields `Default Value`. -/
theorem default_for_zero_and_false :
    applyTransform sampleEnv (expressionRule "value || 'Default Value'") (.num 0)
      = .ok (.str "Default Value") ∧
    applyTransform sampleEnv (expressionRule "value || 'Default Value'") (.bool false)
      = .ok (.str "Default Value") ∧
    ¬ (∀ v : Value,
        applyTransform sampleEnv (expressionRule "value || 'Default Value'") v
            = .ok (.str "Default Value") ↔
          (v = .str "" ∨ v = .null)) := by
  have h0 : applyTransform sampleEnv (expressionRule "value || 'Default Value'") (.num 0)
      = .ok (.str "Default Value") := by
    rw [applyTransform_expression sampleEnv _ (.num 0) _ rfl parse_default, eval_default]
    simp [truthy]
  have hf : applyTransform sampleEnv (expressionRule "value || 'Default Value'") (.bool false)
      = .ok (.str "Default Value") := by
    rw [applyTransform_expression sampleEnv _ (.bool false) _ rfl parse_default, eval_default]
    simp [truthy]
  refine ⟨h0, hf, ?_⟩
  intro h
  rcases (h (.num 0)).mp h0 with h1 | h1 <;> cases h1

/-- C15, amended: for all operand values `a` and `b`, `a || b` evaluates to
`a` when `a` is truthy and to `b` otherwise, where the falsy values are exactly
the empty string, zero, `false` and null; so `value || 'Default Value'` yields
`Default Value` when the source value is one of these, and the source value
itself otherwise. -/
theorem or_returns_truthy_left (env : EngineEnv) (value : Value) (l r : Expr) (a b : Value)
    (hl : eval env value l = .ok a) (hr : eval env value r = .ok b) :
    eval env value (.binary .or l r) = .ok (if truthy a then a else b) ∧
    (truthy a = false ↔ (a = .str "" ∨ a = .num 0 ∨ a = .bool false ∨ a = .null)) ∧
    (∀ (rule : Rule) (v : Value),
      applyTransform env
          { rule with transform_type := "expression"
                      transform_logic := "value || 'Default Value'" } v
        = .ok (if truthy v then v else .str "Default Value")) := by
  refine ⟨?_, ?_, ?_⟩
  · by_cases ha : truthy a = true <;> simp [eval, hl, hr, ha]
  · cases a with
    | null => simp [truthy]
    | bool x => cases x <;> simp [truthy]
    | num x => simp [truthy]
    | str s => simp [truthy]
    | seq items => simp [truthy]
    | map fields => simp [truthy]
  · intro rule v
    rw [applyTransform_expression env _ v _ rfl parse_default]
    exact eval_default env v

theorem or_returns_truthy_left_witness :
    eval sampleEnv (.str "john") (.binary .or .value (.str "Default Value"))
      = .ok (if truthy (.str "john") then .str "john" else .str "Default Value") :=
  (or_returns_truthy_left sampleEnv (.str "john") .value (.str "Default Value")
    (.str "john") (.str "Default Value") rfl rfl).1

end Engine

/-! ## Claims on the guards and failures of `handleTransform` -/

/-- C21: with a client selected and an input text that is not blank and is not
valid JSON, `handleTransform` makes no backend call, shows
`Invalid JSON format in input data`, and ends with `outputData` empty (and
`loading` false). -/
theorem transform_invalid_json (pf : Platform) (reply : Except JSError JSValue)
    (st : TransformState)
    (hc : strTruthy st.selectedClient = true)
    (hi : strTruthy (trim st.inputData) = true)
    (hp : pf.jsonParse st.inputData = none) :
    handleTransform pf reply st =
      ({ st with outputData := "", loading := false },
       [.consoleError "Transformation error:" parseFailure,
        .toastError "Invalid JSON format in input data"]) ∧
    (∀ clientId input,
      Effect.transformRequest clientId input ∉ (handleTransform pf reply st).2) ∧
    (handleTransform pf reply st).1.outputData = "" := by
  have h : handleTransform pf reply st =
      ({ st with outputData := "", loading := false },
       [.consoleError "Transformation error:" parseFailure,
        .toastError "Invalid JSON format in input data"]) := by
    simp [handleTransform, hc, hi, hp, transformCatch, parseFailure, JSError.name]
  refine ⟨h, ?_, ?_⟩
  · intro clientId input
    rw [h]
    simp
  · rw [h]

theorem transform_invalid_json_witness :
    (handleTransform sampleTransformPlatform (.ok JSValue.null)
        { sampleTransformState with inputData := "not json" }).1.outputData = "" :=
  (transform_invalid_json sampleTransformPlatform (.ok JSValue.null)
    { sampleTransformState with inputData := "not json" } (by decide) (by decide) rfl).2.2

/-- C22: when no client is selected, or the input text is empty or white space
only, `handleTransform` makes no backend call and leaves the state, so
`outputData` and `loading`, unchanged. -/
theorem transform_guards (pf : Platform) (reply : Except JSError JSValue)
    (st : TransformState)
    (hguard : strTruthy st.selectedClient = false ∨ isBlank st.inputData = true) :
    (∀ clientId input,
      Effect.transformRequest clientId input ∉ (handleTransform pf reply st).2) ∧
    (handleTransform pf reply st).1 = st ∧
    (handleTransform pf reply st).1.outputData = st.outputData ∧
    (handleTransform pf reply st).1.loading = st.loading := by
  have h : handleTransform pf reply st = (st, [.toastError "Please select a client"]) ∨
      handleTransform pf reply st = (st, [.toastError "Please provide input data"]) := by
    unfold handleTransform
    by_cases hc : strTruthy st.selectedClient = true
    · right
      rcases hguard with hg | hg
      · rw [hg] at hc
        cases hc
      · have : strTruthy (trim st.inputData) = false := by
          rw [strTruthy_trim, hg]
          rfl
        simp [hc, this]
    · left
      simp [hc]
  rcases h with h | h <;> rw [h] <;> simp

theorem transform_guards_witness :
    (handleTransform sampleTransformPlatform (.ok JSValue.null)
        { sampleTransformState with inputData := " \n\t" }).1.outputData =
      ({ sampleTransformState with inputData := " \n\t" } : TransformState).outputData :=
  (transform_guards sampleTransformPlatform (.ok JSValue.null)
    { sampleTransformState with inputData := " \n\t" } (Or.inr (by decide))).2.2.1

/-! ## Response interceptor -/

/-- C23: for every failed response the error handler of the response
interceptor returns a rejected promise carrying the same error, and it removes
the stored token if and only if the response status is 401. -/
theorem response_interceptor_rejects (error : RequestFailure) (token : Option String) :
    (responseErrorInterceptor error token).promise = .error error ∧
    (ApiEffect.removeToken ∈ (responseErrorInterceptor error token).effects ↔
      error.status = some 401) ∧
    (responseErrorInterceptor error token).token
      = (if error.status = some 401 then none else token) := by
  unfold responseErrorInterceptor
  by_cases h401 : error.status = some 401
  · simp [h401]
  · by_cases hd : error.dataError.truthy = true
    · simp [h401, hd]
    · by_cases hm : strTruthy error.message = true <;> simp [h401, hd, hm]

theorem response_interceptor_rejects_witness :
    (responseErrorInterceptor unauthorizedFailure (some "abc")).promise
        = .error unauthorizedFailure ∧
    (responseErrorInterceptor unauthorizedFailure (some "abc")).token = none :=
  ⟨(response_interceptor_rejects unauthorizedFailure (some "abc")).1,
   (response_interceptor_rejects unauthorizedFailure (some "abc")).2.2⟩

/-! ## Claims on normalisation, the two authoring routes and the template -/

/-- A non-empty list of path segments is a well-formed stored path. -/
theorem isStoredPath_pathSegments (path : String) (h : pathSegments path ≠ []) :
    isStoredPath (pathSegments path) = true := by
  simp only [isStoredPath, Bool.and_eq_true, Bool.not_eq_true', List.all_eq_true]
  constructor
  · cases hp : pathSegments path with
    | nil => exact absurd hp h
    | cons a rest => rfl
  · intro seg hseg
    have hmem := hseg
    rw [pathSegments_eq] at hmem
    obtain ⟨hsplit, hblank⟩ := List.mem_filter.mp hmem
    constructor
    · have := split_no_sep path '.' seg hsplit
      simpa using this
    · simpa using hblank

/-- C24: path normalisation is idempotent: splitting a string into segments,
joining them with `.` as export does, and splitting again gives the same
segment list. -/
theorem pathSegments_idempotent (path : String) :
    pathSegments (join (pathSegments path) '.') = pathSegments path := by
  by_cases h : pathSegments path = []
  · rw [h]
    decide
  · exact pathSegments_join _ (isStoredPath_pathSegments path h)

/-- What bulk import builds from a form state set down as an object. -/
theorem transformMapping_formObject (newMapping : NewMapping) (index : Nat)
    (hs : newMapping.source_path ≠ "") (hd : newMapping.destination_path ≠ "")
    (ht : newMapping.transform_type ≠ "") :
    transformMapping (formObject newMapping) index = .ok (formMappingRule newMapping) := by
  have h := transformMapping_of (formObject newMapping) index
    (JSValue.str newMapping.source_path) (JSValue.str newMapping.destination_path)
    (JSValue.str newMapping.transform_type) (JSValue.str newMapping.transform_logic)
    (JSValue.str newMapping.default_value) (JSValue.bool newMapping.required)
    (segmentsValue (pathSegments newMapping.source_path))
    (segmentsValue (pathSegments newMapping.destination_path))
    rfl rfl rfl rfl rfl rfl
    (by simp [JSValue.truthy, strTruthy, hs])
    (by simp [JSValue.truthy, strTruthy, hd])
    (by simp [JSValue.truthy, strTruthy, ht])
    rfl rfl
  rw [h]
  have h1 : (JSValue.str newMapping.transform_logic).or (JSValue.str "")
      = JSValue.str newMapping.transform_logic := by
    by_cases hl : newMapping.transform_logic = "" <;>
      simp [JSValue.or, JSValue.truthy, strTruthy, hl]
  have h2 : (JSValue.str newMapping.default_value).or (JSValue.str "")
      = JSValue.str newMapping.default_value := by
    by_cases hl : newMapping.default_value = "" <;>
      simp [JSValue.or, JSValue.truthy, strTruthy, hl]
  have h3 : (JSValue.bool newMapping.required).or (JSValue.bool false)
      = JSValue.bool newMapping.required := by
    cases newMapping.required <;> simp [JSValue.or, JSValue.truthy]
  rw [h1, h2, h3]
  rfl

/-- C25: the two authoring routes agree.  For every state the form reaches with
non-empty `source_path` and `destination_path`, the rule `handleCreateMapping`
submits is the rule `handleBulkCreateMapping` builds and submits from the
one-element array holding that form state. -/
theorem authoring_routes_agree (events : List FormEvent)
    (hposs : ∀ ev ∈ events, ev.possible = true)
    (hs : (formRun events).source_path ≠ "")
    (hd : (formRun events).destination_path ≠ "") :
    transformedMappings [formObject (formRun events)]
      = .ok [formMappingRule (formRun events)] ∧
    (∀ (reply : Except JSError JSValue) (st : ClientsState) (client : Client),
      st.selectedClient = some client → st.newMapping = formRun events →
      submittedRules (handleCreateMapping reply st).2
        = [[formMappingRule (formRun events)]]) ∧
    (∀ (pf : Platform) (reply : Except JSError JSValue) (st : ClientsState) (client : Client),
      st.selectedClient = some client → strTruthy (trim st.bulkMappingText) = true →
      pf.jsonParse st.bulkMappingText = some (JSValue.arr [formObject (formRun events)]) →
      submittedRules (handleBulkCreateMapping pf reply st).2
        = [[formMappingRule (formRun events)]]) := by
  have ht : (formRun events).transform_type ≠ "" := by
    have hmem := foldl_formStep_transform_type events initialNewMapping
      (by simp [initialNewMapping, specTransformTypes]) hposs
    intro hempty
    have hmem2 : (formRun events).transform_type ∈ specTransformTypes := hmem
    rw [hempty] at hmem2
    revert hmem2
    decide
  have hbulk : transformedMappings [formObject (formRun events)]
      = .ok [formMappingRule (formRun events)] := by
    simp [transformedMappings, mapFrom, transformMapping_formObject _ 0 hs hd ht]
  refine ⟨hbulk, ?_, ?_⟩
  · intro reply st client hc hnm
    unfold handleCreateMapping
    rw [hc, hnm]
    cases reply <;> simp [submittedRules]
  · intro pf reply st client hc htext hp
    exact handleBulk_submits pf reply st client _ _ hc htext hp hbulk

theorem authoring_routes_agree_witness :
    transformedMappings [formObject (formRun sampleFormEvents)]
      = .ok [formMappingRule (formRun sampleFormEvents)] :=
  (authoring_routes_agree sampleFormEvents (by decide) (by decide) (by decide)).1

/-- The template entries are accepted and give the three template rules. -/
theorem transformedMappings_template :
    transformedMappings templateEntries = .ok templateRules := rfl

/-- C26: on a platform whose JSON built-ins are faithful on the template, the
text `generateBulkMappingTemplate` puts in the bulk form is accepted by
`handleBulkCreateMapping` and yields exactly the three template rules, in
order: source paths `[applicantDetails, 0, entityName]`,
`[applicantDetails, 0, mobileNo]`, `[applicantDetails, 0, gender]`,
destination paths `[applicant_name]`, `[applicant_mobile]`,
`[applicant_gender]`, transform types `copy`, `copy`, `mapGender`, required
`true`, `true`, `false`. -/
theorem template_accepted (pf : Platform) (reply : Except JSError JSValue)
    (st : ClientsState) (client : Client)
    (hc : st.selectedClient = some client)
    (hjson : JsonFaithfulOn pf (JSValue.arr templateEntries)) :
    submittedRules (handleBulkCreateMapping pf reply (generateBulkMappingTemplate pf st)).2
      = [templateRules] ∧
    templateRules.map (fun r => r.source_path)
      = [segmentsValue ["applicantDetails", "0", "entityName"],
         segmentsValue ["applicantDetails", "0", "mobileNo"],
         segmentsValue ["applicantDetails", "0", "gender"]] ∧
    templateRules.map (fun r => r.destination_path)
      = [segmentsValue ["applicant_name"], segmentsValue ["applicant_mobile"],
         segmentsValue ["applicant_gender"]] ∧
    templateRules.map (fun r => r.transform_type)
      = [JSValue.str "copy", JSValue.str "copy", JSValue.str "mapGender"] ∧
    templateRules.map (fun r => r.required)
      = [JSValue.bool true, JSValue.bool true, JSValue.bool false] := by
  refine ⟨?_, rfl, rfl, rfl, rfl⟩
  obtain ⟨hnb, hparse⟩ := hjson
  exact handleBulk_submits pf reply (generateBulkMappingTemplate pf st) client
    templateEntries templateRules hc hnb hparse transformedMappings_template

set_option maxRecDepth 100000 in
theorem template_accepted_witness :
    submittedRules (handleBulkCreateMapping
        (platformAt bulkTemplateText (JSValue.arr templateEntries)) (.ok JSValue.null)
        (generateBulkMappingTemplate (platformAt bulkTemplateText (JSValue.arr templateEntries))
          (bulkState ""))).2
      = [templateRules] :=
  (template_accepted (platformAt bulkTemplateText (JSValue.arr templateEntries))
    (.ok JSValue.null) (bulkState "") sampleClient rfl ⟨rfl, rfl⟩).1

/-! ## Busy flags -/

/-- Past its guards `handleTransform` always ends with `loading` false. -/
theorem handleTransform_loading (pf : Platform) (reply : Except JSError JSValue)
    (st : TransformState)
    (hc : strTruthy st.selectedClient = true)
    (hi : strTruthy (trim st.inputData) = true) :
    (handleTransform pf reply st).1.loading = false := by
  unfold handleTransform
  simp only [hc, hi, if_true]
  cases pf.jsonParse st.inputData with
  | none => rfl
  | some input =>
      cases reply with
      | error e => rfl
      | ok result =>
          simp only
          cases warningsCondition result with
          | error e => rfl
          | ok missing =>
              simp only
              by_cases hm : missing.truthy = true
              · simp only [hm, if_true]
                by_cases hw : pf.toastHasWarning = true
                · simp only [hw, if_true]
                  cases warningMessage pf missing <;> rfl
                · simp only [hw]
                  rfl
              · simp only [hm]
                rfl

/-- C27: busy flags are always cleared.  Once past its guards,
`handleTransform` ends with `loading` false whatever the outcome (success,
invalid JSON, backend error, or a failure after the call); likewise
`handleCreateClient`, `handleCreateMapping` and `handleBulkCreateMapping` end
with `creating`, `savingMapping` and `savingBulkMapping` false. -/
theorem busy_flags_cleared :
    (∀ (pf : Platform) (reply : Except JSError JSValue) (st : TransformState),
      strTruthy st.selectedClient = true → strTruthy (trim st.inputData) = true →
      (handleTransform pf reply st).1.loading = false) ∧
    (∀ (reply : Except JSError JSValue) (st : ClientsState),
      strTruthy (trim st.newClientName) = true →
      (handleCreateClient reply st).1.creating = false) ∧
    (∀ (reply : Except JSError JSValue) (st : ClientsState) (client : Client),
      st.selectedClient = some client →
      (handleCreateMapping reply st).1.savingMapping = false) ∧
    (∀ (pf : Platform) (reply : Except JSError JSValue) (st : ClientsState) (client : Client),
      st.selectedClient = some client → strTruthy (trim st.bulkMappingText) = true →
      (handleBulkCreateMapping pf reply st).1.savingBulkMapping = false) := by
  refine ⟨handleTransform_loading, ?_, ?_, ?_⟩
  · intro reply st hn
    unfold handleCreateClient
    simp only [hn, if_true]
    cases reply <;> rfl
  · intro reply st client hc
    unfold handleCreateMapping
    rw [hc]
    cases reply <;> rfl
  · intro pf reply st client hc ht
    unfold handleBulkCreateMapping
    simp only [hc, ht, if_true]
    cases pf.jsonParse st.bulkMappingText with
    | none => rfl
    | some v =>
        cases v with
        | arr bulk =>
            simp only
            cases transformedMappings bulk with
            | error e => rfl
            | ok rules =>
                simp only
                cases reply <;> rfl
        | undefined => rfl
        | null => rfl
        | bool b => rfl
        | num x => rfl
        | str s => rfl
        | obj props => rfl

theorem busy_flags_cleared_witness :
    (handleTransform sampleTransformPlatform (.error (.requestError "Network Error"
        JSValue.undefined)) { sampleTransformState with loading := true }).1.loading = false ∧
    (handleCreateMapping (.error (.requestError "Network Error" JSValue.undefined))
        { formState dotForm with savingMapping := true }).1.savingMapping = false :=
  ⟨busy_flags_cleared.1 sampleTransformPlatform _ _ (by decide) (by decide),
   busy_flags_cleared.2.2.1 _ _ sampleClient rfl⟩

/-! ## Operators reference -/

/-- Every binary operator of the grammar is read by the parser under its
symbol at some precedence level. -/
theorem binOpAt_symbol (op : Engine.BinOp) :
    ∃ level, Engine.binOpAt level (binOpSymbol op) = some op := by
  cases op
  · exact ⟨0, rfl⟩
  · exact ⟨1, rfl⟩
  · exact ⟨2, rfl⟩
  · exact ⟨2, rfl⟩
  · exact ⟨3, rfl⟩
  · exact ⟨3, rfl⟩
  · exact ⟨3, rfl⟩
  · exact ⟨3, rfl⟩
  · exact ⟨4, rfl⟩
  · exact ⟨4, rfl⟩
  · exact ⟨5, rfl⟩
  · exact ⟨5, rfl⟩

/-- C28, evaluated where the code breaks it: the operators reference has
thirteen entries; the unary operator `!` of the grammar is not among their
symbols, every other operator of the grammar is, and the only entry for `-`
describes subtraction. -/
theorem help_operators_lack_not :
    GrammarOperator.unary .not ∈ grammarOperators ∧
    (GrammarOperator.unary .not).symbol = "!" ∧
    "!" ∉ helpOperatorSymbols ∧
    (∀ op ∈ grammarOperators, op ≠ GrammarOperator.unary .not →
      op.symbol ∈ helpOperatorSymbols) ∧
    helpOperators.length = 13 ∧
    (helpOperators.filter (fun o => o.symbol = "-")).map (fun o => o.description)
      = ["Subtraction"] := by
  refine ⟨by decide, rfl, by decide, by decide, rfl, by decide⟩

end Datamorph
